import Mathlib

/-!
Verification development for the Strict Grader system.

The Python sources are shallowly embedded: pydantic models become Lean
structures together with a validity predicate capturing the constraints the
model enforces at construction time, exact decimals become rationals, and
fallible operations return Option or Except values.
-/

set_option maxHeartbeats 1000000

namespace StrictGrader

/-- Python substring containment on character lists: the needle occurs as a
contiguous run inside the hay.  Mirrors the Python expression needle in hay
on strings (an empty needle is contained in everything). -/
def isSubstring (needle : List Char) : List Char → Bool
  | [] => needle.isEmpty
  | c :: t => needle.isPrefixOf (c :: t) || isSubstring needle t

/-- Case folding, mirroring Python str.lower() on the ASCII strings the
system handles.  Defined directly on the character data so that it reduces
inside the kernel. -/
def strToLower (s : String) : String :=
  ⟨s.data.map Char.toLower⟩

/-! ## Data model (src/models.py) -/

/-- RubricCriterion from src/models.py: one grading criterion.  Exact
decimals are embedded as rationals. -/
structure RubricCriterion where
  name : String
  description : String
  max_points : Rat
  allows_partial_credit : Bool := true
deriving Repr, DecidableEq

/-- Constraints pydantic enforces when a RubricCriterion is constructed:
name length between 1 and 200, description nonempty, and
0 < max_points ≤ 1000. -/
def RubricCriterion.valid (c : RubricCriterion) : Prop :=
  1 ≤ c.name.length ∧ c.name.length ≤ 200 ∧
    1 ≤ c.description.length ∧ 0 < c.max_points ∧ c.max_points ≤ 1000

instance : DecidablePred RubricCriterion.valid := by
  intro c
  unfold RubricCriterion.valid
  infer_instance

/-- Rubric from src/models.py: title, optional description and an ordered
sequence of criteria.  The tuple of criteria is embedded as a list. -/
structure Rubric where
  title : String
  description : String := ""
  criteria : List RubricCriterion
deriving Repr, DecidableEq

/-- Computed field total_max_points: exact sum of the criteria max_points. -/
def Rubric.total_max_points (r : Rubric) : Rat :=
  (r.criteria.map fun c => c.max_points).sum

/-- Computed field criterion_count. -/
def Rubric.criterion_count (r : Rubric) : Nat :=
  r.criteria.length

/-- Model validator validate_no_duplicate_names from src/models.py lines
119-126: Python compares len(names) against len(set(names)), i.e. it tests
whether the exact (case-sensitive) criterion names are pairwise distinct. -/
def noDuplicateNames (criteria : List RubricCriterion) : Bool :=
  (criteria.map fun c => c.name).dedup.length == (criteria.map fun c => c.name).length

/-- Pydantic construction of a Rubric: the field constraints (title length
between 1 and 500, at least one criterion) together with the
validate_no_duplicate_names model validator.  Returns none when
construction raises. -/
def mkRubric (title : String) (description : String)
    (criteria : List RubricCriterion) : Option Rubric :=
  if 1 ≤ title.length ∧ title.length ≤ 500 ∧ 1 ≤ criteria.length ∧
      noDuplicateNames criteria = true then
    some ⟨title, description, criteria⟩
  else none

/-- CriterionResult from src/models.py: result for one criterion. -/
structure CriterionResult where
  criterion_name : String
  max_points : Rat
  awarded_points : Rat
  justification : String
  deduction_reason : Option String := none
deriving Repr, DecidableEq

/-- Constraints enforced when a CriterionResult is constructed: the field
constraint awarded_points ≥ 0, justification nonempty, and the model
validator validate_points_range requiring awarded_points ≤ max_points.
Note the code places no direct lower bound on max_points itself. -/
def CriterionResult.valid (c : CriterionResult) : Prop :=
  0 ≤ c.awarded_points ∧ 1 ≤ c.justification.length ∧
    c.awarded_points ≤ c.max_points

instance : DecidablePred CriterionResult.valid := by
  intro c
  unfold CriterionResult.valid
  infer_instance

/-- Computed field percentage on CriterionResult. -/
def CriterionResult.percentage (c : CriterionResult) : Rat :=
  if c.max_points = 0 then 0 else c.awarded_points / c.max_points * 100

/-- GradingResult from src/models.py.  The nondeterministic metadata fields
submission_id (a random UUID) and graded_at (a wall-clock timestamp) are
omitted from the embedding; no claim concerns them. -/
structure GradingResult where
  rubric_title : String
  criteria_results : List CriterionResult
  overall_feedback : String
  llm_passes_used : Nat := 1
  variance_detected : Bool := false
  flagged_for_review : Bool := false
deriving Repr, DecidableEq

/-- Constraints enforced when a GradingResult is constructed: at least one
criteria result, overall_feedback nonempty, llm_passes_used ≥ 1; in strict
mode every element of criteria_results is itself an already-validated
CriterionResult. -/
def GradingResult.valid (g : GradingResult) : Prop :=
  1 ≤ g.criteria_results.length ∧ (∀ r ∈ g.criteria_results, r.valid) ∧
    1 ≤ g.overall_feedback.length ∧ 1 ≤ g.llm_passes_used

instance : DecidablePred GradingResult.valid := by
  intro g
  unfold GradingResult.valid
  infer_instance

/-- Computed field total_awarded: exact sum of awarded points. -/
def GradingResult.total_awarded (g : GradingResult) : Rat :=
  (g.criteria_results.map fun r => r.awarded_points).sum

/-- Computed field total_max: exact sum of per-criterion max points. -/
def GradingResult.total_max (g : GradingResult) : Rat :=
  (g.criteria_results.map fun r => r.max_points).sum

/-- Computed field percentage_score: zero when total_max is zero, else the
awarded fraction scaled to 100. -/
def GradingResult.percentage_score (g : GradingResult) : Rat :=
  if g.total_max = 0 then 0 else g.total_awarded / g.total_max * 100

/-! ## Result parser (src/grading/scorer.py)

The JSON payload is embedded at the typed level: a RawResponse holds the
four required top-level fields with total_score and max_possible already
parsed as exact decimals, and each element of criteria_results holds the
fields the parser reads from the corresponding JSON object.  Failures are
the classified ScoringError cases raised by ResponseParser. -/

/-- One entry of the criteria_results list of the oracle payload, with the
awarded_points figure already parsed as an exact decimal. -/
structure RawCriterionItem where
  criterion : String
  awarded_points : Rat
  justification : String
  deduction_reason : Option String := none
deriving Repr, DecidableEq

/-- The four required top-level fields of the oracle payload. -/
structure RawResponse where
  total_score : Rat
  max_possible : Rat
  criteria_results : List RawCriterionItem
  overall_feedback : String
deriving Repr, DecidableEq

/-- Classified scoring failures raised by ResponseParser, with the data
each message carries. -/
inductive ScoringErr where
  | missingCriterionName (index : Nat)
  | unknownCriterion (reported : String)
  | duplicateCriterion (reported : String)
  | negativePoints (reported : String) (points : Rat)
  | exceedsMax (reported : String) (points maxPoints : Rat)
  | missingJustification (reported : String)
  | missingCriteria (canonicalNames : List String)
  | maxPossibleMismatch (reported expected : Rat)
deriving Repr, DecidableEq

/-- Insertion into a Python dict modelled as an ordered association list:
an existing key keeps its position and gets the new value, a new key is
appended at the end.  This matches CPython insertion-order semantics. -/
def dictInsert (k : String) (v : RubricCriterion) :
    List (String × RubricCriterion) → List (String × RubricCriterion)
  | [] => [(k, v)]
  | (k1, v1) :: rest =>
      if k1 = k then (k1, v) :: rest else (k1, v1) :: dictInsert k v rest

/-- The rubric_lookup dict of _parse_criteria_results: keys are the
case-folded criterion names, values the criteria, built left to right. -/
def rubricLookup (r : Rubric) : List (String × RubricCriterion) :=
  r.criteria.foldl (fun d c => dictInsert (strToLower c.name) c d) []

/-- Lookup in the ordered association list (first, hence only, match). -/
def dictGet (d : List (String × RubricCriterion)) (k : String) :
    Option RubricCriterion :=
  (d.find? fun p => p.1 = k).map fun p => p.2

/-- Criterion name resolution of _parse_criteria_results: case-insensitive
exact match against the lookup keys, else the first dict entry related to
the reported name by substring containment in either direction. -/
def resolveCriterion (d : List (String × RubricCriterion)) (reported : String) :
    Option RubricCriterion :=
  match dictGet d (strToLower reported) with
  | some c => some c
  | none =>
      (d.find? fun p =>
        isSubstring p.1.data (strToLower reported).data ||
          isSubstring (strToLower reported).data p.1.data).map fun p => p.2

/-- Normalization of deduction_reason: the literal string null becomes a
true null, anything else is kept. -/
def normalizeDeduction : Option String → Option String
  | some s => if s = "null" then none else some s
  | none => none

/-- The per-item loop of _parse_criteria_results: walks the reported list
carrying the running index (for error messages) and the set of case-folded
canonical names already resolved (the seen_criteria set, embedded as a
list).  Returns the produced CriterionResult values in order together with
the final seen set, or the first ScoringErr raised. -/
def processItems (d : List (String × RubricCriterion)) :
    List RawCriterionItem → Nat → List String →
    Except ScoringErr (List CriterionResult × List String)
  | [], _, seen => .ok ([], seen)
  | item :: rest, i, seen =>
      if item.criterion = "" then .error (.missingCriterionName i)
      else
        match resolveCriterion d item.criterion with
        | none => .error (.unknownCriterion item.criterion)
        | some rc =>
            if strToLower rc.name ∈ seen then
              .error (.duplicateCriterion item.criterion)
            else if item.awarded_points < 0 then
              .error (.negativePoints item.criterion item.awarded_points)
            else if rc.max_points < item.awarded_points then
              .error (.exceedsMax item.criterion item.awarded_points rc.max_points)
            else if item.justification = "" then
              .error (.missingJustification item.criterion)
            else
              match processItems d rest (i + 1) (seen ++ [strToLower rc.name]) with
              | .error e => .error e
              | .ok (rs, seenFinal) =>
                  .ok (⟨rc.name, rc.max_points, item.awarded_points,
                        item.justification,
                        normalizeDeduction item.deduction_reason⟩ :: rs,
                      seenFinal)

/-- The _parse_criteria_results method: process the reported list, then
require every lookup key to have been resolved; unresolved keys surface as
a missingCriteria failure listing the canonical rubric names. -/
def parseCriteriaResults (rubric : Rubric) (items : List RawCriterionItem) :
    Except ScoringErr (List CriterionResult) :=
  let d := rubricLookup rubric
  match processItems d items 0 [] with
  | .error e => .error e
  | .ok (rs, seen) =>
      let missing := (d.map fun p => p.1).filter fun k => k ∉ seen
      if missing.isEmpty then .ok rs
      else
        .error (.missingCriteria (missing.map fun k =>
          match dictGet d k with
          | some c => c.name
          | none => k))

/-- The _validate_and_convert method: parse the criteria results, parse the
reported totals, silently ignore a reported total_score that disagrees with
the recomputed sum, reject a max_possible differing from the rubric total,
and build the GradingResult. -/
def validateAndConvert (rubric : Rubric) (data : RawResponse) :
    Except ScoringErr GradingResult :=
  match parseCriteriaResults rubric data.criteria_results with
  | .error e => .error e
  | .ok rs =>
      if data.max_possible ≠ rubric.total_max_points then
        .error (.maxPossibleMismatch data.max_possible rubric.total_max_points)
      else
        .ok ⟨rubric.title, rs, data.overall_feedback, 1, false, false⟩

/-! ## Consensus engine (src/grading/engine.py)

Two embeddings of the selection arithmetic are given.  selectResult,
calcVariance and gradeFinal below idealize the Python floats as exact
rationals; they serve the claims whose truth does not depend on the
numeric representation (the flag logic, where both flags are computed from
the one variance expression), and selectResult doubles as the exact
closest-to-median rule the specification describes.  The float-faithful
embedding selectResultFloat, with every double rounding explicit, follows
in the next section and carries the selection claims. -/

/-- GradingPass from src/grading/engine.py: result of one pass together
with the captured total score (the raw oracle text is omitted; no claim
concerns it).  _perform_passes always sets total_score to the result's
total_awarded. -/
structure GradingPass where
  result : GradingResult
  total_score : Rat
deriving Repr, DecidableEq

/-- Maximum of a list of rationals, head-seeded as Python max. -/
def listMax : List Rat → Rat
  | [] => 0
  | x :: xs => xs.foldl max x

/-- Minimum of a list of rationals, head-seeded as Python min. -/
def listMin : List Rat → Rat
  | [] => 0
  | x :: xs => xs.foldl min x

/-- Stable insertion into an ascending list. -/
def insertSorted (x : Rat) : List Rat → List Rat
  | [] => [x]
  | y :: ys => if x ≤ y then x :: y :: ys else y :: insertSorted x ys

/-- Ascending sort, mirroring Python sorted. -/
def sortRat (l : List Rat) : List Rat :=
  l.foldr insertSorted []

/-- Python statistics.median: sort ascending; odd length takes the middle
element, even length averages the two middle elements.  The empty case
(which raises in Python and is never reached here) is totalized to 0. -/
def median (l : List Rat) : Rat :=
  let s := sortRat l
  let n := s.length
  if n = 0 then 0
  else if n % 2 = 1 then s.getD (n / 2) 0
  else (s.getD (n / 2 - 1) 0 + s.getD (n / 2) 0) / 2

/-- The _calculate_variance method: zero for fewer than two passes or a
zero maximum, else the score range as a percentage of the first pass's
total_max. -/
def calcVariance (passes : List GradingPass) : Rat :=
  match passes with
  | [] => 0
  | [_] => 0
  | p :: rest =>
      let scores := (p :: rest).map fun q => q.total_score
      let maxPossible := p.result.total_max
      if maxPossible = 0 then 0
      else (listMax scores - listMin scores) / maxPossible * 100

/-- Python min with a key function: left fold keeping the current best and
replacing it only on a strictly smaller key, so the first minimizer in
iteration order wins. -/
def argminFirst {α : Type} (f : α → Rat) (x : α) (xs : List α) : α :=
  xs.foldl (fun best y => if f y < f best then y else best) x

/-- The _select_result method with its float arithmetic idealized to
exact rationals (the exact closest-to-median rule with earliest tie
break): a single pass is returned with the variance flag false; with two
or more passes the variance flag compares the variance percentage against
the threshold and the pass closest to the median score is selected.  The
empty case (unreachable behind the need-one-success gate of
_perform_passes) is none.  See selectResultFloat for the float-faithful
embedding. -/
def selectResult (threshold : Rat) (passes : List GradingPass) :
    Option (GradingResult × Bool) :=
  match passes with
  | [] => none
  | [p] => some (p.result, false)
  | p :: rest =>
      let scores := (p :: rest).map fun q => q.total_score
      let vd : Bool := decide (calcVariance (p :: rest) > threshold)
      let med := median scores
      let closest := argminFirst (fun q => |q.total_score - med|) p rest
      some (closest.result, vd)

/-- The final-result construction of GradingEngine.grade: the selected
result re-stamped with the pass count, the variance flag, and
flagged_for_review computed as variance_detected AND variance above the
threshold. -/
def gradeFinal (threshold : Rat) (numPasses : Nat) (passes : List GradingPass) :
    Option GradingResult :=
  match selectResult threshold passes with
  | none => none
  | some (r, vd) =>
      some ⟨r.rubric_title, r.criteria_results, r.overall_feedback, numPasses, vd,
        vd && decide (calcVariance passes > threshold)⟩

/-! ## Double-precision model of the selection arithmetic

The methods _select_result and _calculate_variance convert the Decimal
scores with float(...) and compute in IEEE-754 binary64 doubles.  A double
value is represented below by the exact rational it denotes; roundDouble
maps a rational to the value of the nearest double with ties to even,
which is what float(Decimal(...)) and each arithmetic double operation
produce.  Overflow and subnormal rounding are not modelled: every quantity
reached by the claims stays far inside the normal range. -/

/-- Integer power of two as a rational. -/
def ratExp2 (e : Int) : Rat :=
  if 0 ≤ e then (2 : Rat) ^ e.toNat else ((2 : Rat) ^ (-e).toNat)⁻¹

/-- Binade exponent of a positive rational: the e with 2^e ≤ a < 2^(e+1),
computed from the floor of a (or of its inverse) and Nat.log2. -/
def binExp (a : Rat) : Int :=
  if 1 ≤ a then (Nat.log2 ⌊a⌋.toNat : Int)
  else
    let j := Nat.log2 ⌊a⁻¹⌋.toNat
    if a * ratExp2 (j : Int) = 1 then -(j : Int) else -(j : Int) - 1

/-- Nearest integer to a rational, ties to even. -/
def roundHalfEven (x : Rat) : Int :=
  if x - (⌊x⌋ : Rat) < 1/2 then ⌊x⌋
  else if 1/2 < x - (⌊x⌋ : Rat) then ⌊x⌋ + 1
  else if ⌊x⌋ % 2 = 0 then ⌊x⌋ else ⌊x⌋ + 1

/-- Nearest-double value of a positive rational: scale the mantissa into
the 53-bit range, round ties to even, scale back. -/
def roundDoublePos (a : Rat) : Rat :=
  (roundHalfEven (a * ratExp2 (52 - binExp a)) : Rat) * ratExp2 (binExp a - 52)

/-- Value of the IEEE-754 binary64 double nearest to a rational, ties to
even. -/
def roundDouble (q : Rat) : Rat :=
  if q = 0 then 0
  else if q < 0 then -roundDoublePos (-q)
  else roundDoublePos q

/-- Python statistics.median on a list of double values: sort (exact
comparisons), middle element when the length is odd, and for even length
the rounded double sum of the two middle elements halved (halving a
double is value-exact away from the subnormal range). -/
def medianFloat (l : List Rat) : Rat :=
  let s := sortRat l
  let n := s.length
  if n = 0 then 0
  else if n % 2 = 1 then s.getD (n / 2) 0
  else roundDouble (s.getD (n / 2 - 1) 0 + s.getD (n / 2) 0) / 2

/-- The _calculate_variance method with the float arithmetic explicit:
scores and the first total_max pass through float(...), and the
subtraction, the division and the scaling by 100 each round to the
nearest double. -/
def calcVarianceFloat (passes : List GradingPass) : Rat :=
  match passes with
  | [] => 0
  | [_] => 0
  | p :: rest =>
      let scores := (p :: rest).map fun q => roundDouble q.total_score
      let maxPossible := roundDouble p.result.total_max
      if maxPossible = 0 then 0
      else
        roundDouble (roundDouble (roundDouble (listMax scores - listMin scores) /
          maxPossible) * 100)

/-- The double-valued selection key of _select_result for one pass:
abs(float(total_score) - median_score), the subtraction rounding to the
nearest double. -/
def floatKey (med : Rat) (q : GradingPass) : Rat :=
  |roundDouble (roundDouble q.total_score - med)|

/-- The _select_result method with the float arithmetic explicit: one
pass returns directly with the variance flag false; otherwise the pass
with the smallest double-precision distance to the double-precision
median is selected, Python min keeping the earliest minimizer. -/
def selectResultFloat (threshold : Rat) (passes : List GradingPass) :
    Option (GradingResult × Bool) :=
  match passes with
  | [] => none
  | [p] => some (p.result, false)
  | p :: rest =>
      let scores := (p :: rest).map fun q => roundDouble q.total_score
      let vd : Bool := decide (calcVarianceFloat (p :: rest) > threshold)
      let med := medianFloat scores
      let closest := argminFirst (floatKey med) p rest
      some (closest.result, vd)

/-! ## Rubric validator (src/rubric/validator.py) -/

/-- Python str.strip: whitespace removed from both ends, defined on the
character data so that it reduces inside the kernel. -/
def strTrim (s : String) : String :=
  ⟨((s.data.dropWhile Char.isWhitespace).reverse.dropWhile Char.isWhitespace).reverse⟩

/-- The fixed vague-word vocabulary VAGUE_WORDS of RubricValidator, in
source order.  The Python value is a frozenset whose iteration order is
unspecified; every property proved about it is order-independent. -/
def VAGUE_WORDS : List String :=
  ["good", "bad", "nice", "okay", "fine", "appropriate", "adequate",
    "sufficient", "reasonable"]

/-- Minimum description length required by the validator. -/
def MIN_DESCRIPTION_LENGTH : Nat := 10

/-- Maximum points per criterion accepted by the validator. -/
def MAX_POINTS_PER_CRITERION : Rat := 1000

/-- The issues _validate_criterion can append, with the data each message
carries. -/
inductive ValidationIssue where
  | nameTooShort (index : Nat)
  | descriptionTooShort (index : Nat)
  | vagueWords (index : Nat) (words : List String)
  | pointsExceedMax (index : Nat)
deriving Repr, DecidableEq

/-- The vague_found list of _validate_criterion: every vocabulary word
occurring as a substring of the case-folded description (Python tests
w in description.lower(), a plain substring test). -/
def vagueFound (description : String) : List String :=
  VAGUE_WORDS.filter fun w => isSubstring w.data (strToLower description).data

/-- The _validate_criterion method: name at least two characters after
stripping, description at least ten characters after stripping, no vague
words, points at most 1000; issues appended in source order. -/
def validateCriterion (c : RubricCriterion) (index : Nat) : List ValidationIssue :=
  (if (strTrim c.name).length < 2 then [ValidationIssue.nameTooShort index] else []) ++
  (if (strTrim c.description).length < MIN_DESCRIPTION_LENGTH then
    [ValidationIssue.descriptionTooShort index] else []) ++
  (if (vagueFound c.description).isEmpty then []
    else [ValidationIssue.vagueWords index (vagueFound c.description)]) ++
  (if MAX_POINTS_PER_CRITERION < c.max_points then
    [ValidationIssue.pointsExceedMax index] else [])

/-- Recognizer for the vague-description issue. -/
def isVagueIssue : ValidationIssue → Bool
  | .vagueWords _ _ => true
  | _ => false

/-- Splitter into maximal alphanumeric runs, used by the spec-side token
reading of the vague-word rule. -/
def tokenSplit (cur : List Char) : List Char → List (List Char)
  | [] => [cur.reverse]
  | c :: rest =>
      if c.isAlphanum then tokenSplit (c :: cur) rest
      else cur.reverse :: tokenSplit [] rest

/-- Modelled from the spec: the claim reads the vague-word rule as an
exact case-insensitive token match, something no code in the repository
implements (the code uses a substring test).  A description matches when
some vocabulary word equals one of its case-folded alphanumeric tokens. -/
def specVagueTokenMatch (description : String) : Bool :=
  VAGUE_WORDS.any fun w =>
    (tokenSplit [] (strToLower description).data).contains w.data

/-! ## Rubric parser (src/rubric/parser.py)

The regular expressions of RubricParser are embedded as explicit
character-list matchers.  The patterns are anchored and their repeated
classes exclude their own delimiters, so matching is deterministic except
for corner cases noted on the individual matchers. -/

/-- Classified failures of RubricParser.parse.  A construction failure of
the final Rubric value (an uncaught pydantic error in Python) is modelled
as constructionFailed. -/
inductive RubricParseErr where
  | emptyContent
  | nonPositivePoints (line : Nat)
  | noValidCriteria
  | constructionFailed
deriving Repr, DecidableEq

/-- Prefix test on the character data (Python str.startswith). -/
def strStartsWith (s pre : String) : Bool :=
  pre.data.isPrefixOf s.data

/-- Digit run to a natural number. -/
def digitsToNat (ds : List Char) : Nat :=
  ds.foldl (fun n c => n * 10 + (c.toNat - 48)) 0

/-- Exact decimal value of an integer part and a fraction part, as
Decimal would parse the matched points text. -/
def decimalToRat (ipart fpart : List Char) : Rat :=
  if fpart.isEmpty then (digitsToNat ipart : Rat)
  else (digitsToNat ipart : Rat) + (digitsToNat fpart : Rat) / (10 : Rat) ^ fpart.length

/-- The _parse_points check: Decimal conversion always succeeds on the
matched digit text, and a non-positive value is a hard parse error. -/
def parsePoints (points : Rat) (line : Nat) : Except RubricParseErr Rat :=
  if points ≤ 0 then .error (.nonPositivePoints line) else .ok points

/-- Optional trailing s (upper or lower case) after a unit word. -/
def skipOptS : List Char → List Char
  | [] => []
  | c :: rest => if c = 's' ∨ c = 'S' then rest else c :: rest

/-- The unit alternation (points?|pts?|marks?), case-insensitive,
returning the remainder after the unit when it matches. -/
def matchUnit (l : List Char) : Option (List Char) :=
  let low := l.map Char.toLower
  if low.take 5 = "point".data then some (skipOptS (l.drop 5))
  else if low.take 2 = "pt".data then some (skipOptS (l.drop 2))
  else if low.take 4 = "mark".data then some (skipOptS (l.drop 4))
  else none

/-- Optional fraction (?:\.\d+)? after the integer digits: a dot followed
by at least one digit, else nothing is consumed. -/
def matchFraction (l : List Char) : List Char × List Char :=
  match l with
  | '.' :: rest =>
      let f := rest.takeWhile Char.isDigit
      if f.isEmpty then ([], l) else (f, rest.dropWhile Char.isDigit)
  | _ => ([], l)

/-- The NUMBERED_PATTERN matcher and the body of _try_numbered_format:
leading whitespace, digits, a dot, whitespace, a nonempty name running to
the first opening parenthesis, the points with unit inside parentheses,
optional colons and whitespace, then the description.  An empty stripped
description falls back to Evaluation of the name. -/
def tryNumberedFormat (line : String) (lineNum : Nat) :
    Except RubricParseErr (Option RubricCriterion) :=
  let l1 := line.data.dropWhile Char.isWhitespace
  let num := l1.takeWhile Char.isDigit
  let l2 := l1.dropWhile Char.isDigit
  if num.isEmpty then .ok none
  else
    match l2 with
    | '.' :: l3 =>
        let l4 := l3.dropWhile Char.isWhitespace
        let name := l4.takeWhile fun c => c ≠ '('
        let l5 := l4.dropWhile fun c => c ≠ '('
        if name.isEmpty then .ok none
        else
          match l5 with
          | '(' :: l6 =>
              let ipart := l6.takeWhile Char.isDigit
              let l7 := l6.dropWhile Char.isDigit
              if ipart.isEmpty then .ok none
              else
                let fr := matchFraction l7
                let l9 := fr.2.dropWhile Char.isWhitespace
                match matchUnit l9 with
                | none => .ok none
                | some l10 =>
                    match l10 with
                    | ')' :: l11 =>
                        match parsePoints (decimalToRat ipart fr.1) lineNum with
                        | .error e => .error e
                        | .ok pts =>
                            let l12 := l11.dropWhile fun c =>
                              c = ':' ∨ Char.isWhitespace c
                            let nameStr := strTrim ⟨name⟩
                            let descStr := strTrim ⟨l12⟩
                            .ok (some ⟨nameStr,
                              if descStr = "" then "Evaluation of " ++ nameStr
                              else descStr, pts, true⟩)
                    | _ => .ok none
          | _ => .ok none
    | _ => .ok none

/-- Dash class of the SIMPLE_PATTERN separators. -/
def isDashChar (c : Char) : Bool :=
  c = '-' ∨ c = '–' ∨ c = '—'

/-- The SIMPLE_PATTERN matcher of _try_simple_format: name, dash, points
with unit, dash, description.  The lazy name group is modelled by
splitting at the first dash-class character; a whitespace-only name
segment (which in Python would strip to an empty name and crash rubric
construction) is modelled as a non-match. -/
def trySimpleFormat (line : String) (lineNum : Nat) :
    Except RubricParseErr (Option RubricCriterion) :=
  let l1 := line.data.dropWhile Char.isWhitespace
  let name := l1.takeWhile fun c => ¬ isDashChar c
  let l2 := l1.dropWhile fun c => ¬ isDashChar c
  if (strTrim ⟨name⟩).data.isEmpty then .ok none
  else
    match l2 with
    | _ :: l3 =>
        let l4 := l3.dropWhile Char.isWhitespace
        let ipart := l4.takeWhile Char.isDigit
        let l5 := l4.dropWhile Char.isDigit
        if ipart.isEmpty then .ok none
        else
          let fr := matchFraction l5
          let l6 := fr.2.dropWhile Char.isWhitespace
          match matchUnit l6 with
          | none => .ok none
          | some l7 =>
              let l8 := l7.dropWhile Char.isWhitespace
              match l8 with
              | d :: l9 =>
                  if isDashChar d then
                    let l10 := l9.dropWhile Char.isWhitespace
                    if l10.isEmpty then .ok none
                    else
                      match parsePoints (decimalToRat ipart fr.1) lineNum with
                      | .error e => .error e
                      | .ok pts =>
                          .ok (some ⟨strTrim ⟨name⟩, strTrim ⟨l10⟩, pts, true⟩)
                  else .ok none
              | [] => .ok none
    | [] => .ok none

/-- The COLON_PATTERN matcher of _try_colon_format: name up to the first
colon, points with unit, at least one separator, description. -/
def tryColonFormat (line : String) (lineNum : Nat) :
    Except RubricParseErr (Option RubricCriterion) :=
  let l1 := line.data.dropWhile Char.isWhitespace
  let name := l1.takeWhile fun c => c ≠ ':'
  let l2 := l1.dropWhile fun c => c ≠ ':'
  if name.isEmpty then .ok none
  else
    match l2 with
    | ':' :: l3 =>
        let l4 := l3.dropWhile Char.isWhitespace
        let ipart := l4.takeWhile Char.isDigit
        let l5 := l4.dropWhile Char.isDigit
        if ipart.isEmpty then .ok none
        else
          let fr := matchFraction l5
          let l6 := fr.2.dropWhile Char.isWhitespace
          match matchUnit l6 with
          | none => .ok none
          | some l7 =>
              let isSep := fun c => c = ',' ∨ c = ';' ∨ c = ':' ∨ Char.isWhitespace c
              let l8 := l7.dropWhile isSep
              if l7.length = l8.length then .ok none
              else if l8.isEmpty then .ok none
              else
                match parsePoints (decimalToRat ipart fr.1) lineNum with
                | .error e => .error e
                | .ok pts =>
                    .ok (some ⟨strTrim ⟨name⟩, strTrim ⟨l8⟩, pts, true⟩)
    | _ => .ok none

/-- Removal of every occurrence of a pattern from a character list
(Python str.replace with an empty replacement). -/
def removeAll (pat : List Char) : List Char → List Char
  | [] => []
  | c :: rest =>
      if h : pat ≠ [] ∧ pat.isPrefixOf (c :: rest) then
        removeAll pat (rest.drop (pat.length - 1))
      else c :: removeAll pat rest
termination_by l => l.length
decreasing_by
  · simp only [List.length_drop, List.length_cons]
    omega
  · simp

/-- The search of _try_table_format inside one cell: the first digit run,
optionally followed by whitespace and a unit word; returns the points
value and the text the regex match consumed. -/
def findPointsInCell : List Char → Option (Rat × List Char)
  | [] => none
  | c :: rest =>
      if c.isDigit then
        let ipart := (c :: rest).takeWhile Char.isDigit
        let l1 := (c :: rest).dropWhile Char.isDigit
        let fr := matchFraction l1
        let ws := fr.2.takeWhile Char.isWhitespace
        let l2 := fr.2.dropWhile Char.isWhitespace
        let consumedCore := ipart ++ (if fr.1.isEmpty then [] else '.' :: fr.1)
        match matchUnit l2 with
        | some l3 =>
            some (decimalToRat ipart fr.1,
              consumedCore ++ ws ++ l2.take (l2.length - l3.length))
        | none => some (decimalToRat ipart fr.1, consumedCore ++ ws)
      else findPointsInCell rest

/-- Python str.split on one character. -/
def splitOnChar (sep : Char) : List Char → List (List Char)
  | [] => [[]]
  | c :: rest =>
      let r := splitOnChar sep rest
      if c = sep then [] :: r
      else
        match r with
        | [] => [[c]]
        | h :: t => (c :: h) :: t

/-- The _try_table_format matcher: pipe-delimited cells, stripped and
with empty edge cells removed; the first cell containing a points match
decides; the consumed match text is removed from the name when the match
was in the first cell.  The whitespace regex detail that the unit may
follow the digits after blanks is mirrored by findPointsInCell. -/
def tryTableFormat (line : String) (lineNum : Nat) :
    Except RubricParseErr (Option RubricCriterion) :=
  if ¬ strStartsWith line "|" then .ok none
  else
    let cells := ((splitOnChar '|' line.data).map fun c => strTrim ⟨c⟩).filter
      fun c => c ≠ ""
    if cells.length < 2 then .ok none
    else
      let rec scan : List String → Nat → Except RubricParseErr (Option RubricCriterion)
        | [], _ => .ok none
        | cell :: more, i =>
            match findPointsInCell cell.data with
            | none => scan more (i + 1)
            | some (pts0, consumed) =>
                match parsePoints pts0 lineNum with
                | .error e => .error e
                | .ok pts =>
                    let name :=
                      if i = 0 then
                        let n := strTrim ⟨removeAll consumed cell.data⟩
                        if n = "" then "Criterion " ++ toString lineNum else n
                      else
                        match cells.head? with
                        | some h => if h = "" then "Criterion " ++ toString lineNum else h
                        | none => "Criterion " ++ toString lineNum
                    let description :=
                      if i = 0 then
                        if cells.length > 1 then
                          String.intercalate " " (cells.drop 1)
                        else "Evaluation of " ++ name
                      else
                        if i + 1 < cells.length then
                          String.intercalate " " (cells.drop (i + 1))
                        else "Evaluation of " ++ name
                    if name ≠ "" ∧ pts > 0 then
                      .ok (some ⟨name,
                        if description = "" then "Evaluation of " ++ name
                        else description, pts, true⟩)
                    else scan more (i + 1)
      scan cells 0

/-- The per-line strategy cascade of _parse_lines: numbered, then simple,
then colon, then table; the first strategy that matches wins. -/
def tryLine (line : String) (lineNum : Nat) :
    Except RubricParseErr (Option RubricCriterion) := do
  match ← tryNumberedFormat line lineNum with
  | some c => pure (some c)
  | none =>
      match ← trySimpleFormat line lineNum with
      | some c => pure (some c)
      | none =>
          match ← tryColonFormat line lineNum with
          | some c => pure (some c)
          | none => tryTableFormat line lineNum

/-- The skip conditions of _parse_lines: blank lines, heading lines,
horizontal rules, and table separator rows whose content is only dashes
and colons. -/
def skipLine (stripped : String) : Bool :=
  stripped = "" || strStartsWith stripped "#" || strStartsWith stripped "---" ||
    (strStartsWith stripped "|" &&
      (strTrim ⟨stripped.data.filter fun c => c ≠ '|'⟩).data.all
        fun c => c = '-' ∨ c = ':')

/-- The line loop of _parse_lines, carrying the one-based line number. -/
def parseLines : List String → Nat → Except RubricParseErr (List RubricCriterion)
  | [], _ => .ok []
  | line :: rest, n =>
      let stripped := strTrim line
      if skipLine stripped then parseLines rest (n + 1)
      else
        match tryLine stripped n with
        | .error e => .error e
        | .ok none => parseLines rest (n + 1)
        | .ok (some c) =>
            match parseLines rest (n + 1) with
            | .error e => .error e
            | .ok cs => .ok (c :: cs)

/-- The criterion-shape search of _extract_title: some digit run followed
by optional whitespace and a unit word anywhere in the line. -/
def criterionShaped : List Char → Bool
  | [] => false
  | c :: rest =>
      (c.isDigit &&
        (matchUnit (((c :: rest).dropWhile Char.isDigit).dropWhile
          Char.isWhitespace)).isSome) ||
      criterionShaped rest

/-- The _extract_title method: a markdown heading wins; else the first
nonempty line that is not criterion-shaped becomes the title when it is
short and free of pipes, dashes and colons, and otherwise ends the
search. -/
def extractTitle : List String → Option String
  | [] => none
  | line :: rest =>
      let stripped := strTrim line
      if strStartsWith stripped "#" then
        some (strTrim ⟨stripped.data.dropWhile fun c => c = '#'⟩)
      else if stripped ≠ "" ∧ ¬ criterionShaped stripped.data then
        if stripped.length < 100 ∧
            stripped.data.all (fun c => c ≠ '|' ∧ c ≠ '-' ∧ c ≠ ':') then
          some stripped
        else none
      else extractTitle rest

/-- The RubricParser.parse method: reject empty content, split into
lines, run the line loop, require at least one criterion, resolve the
title, and construct the Rubric value. -/
def parseRubric (content : String) (title : String) :
    Except RubricParseErr Rubric :=
  if strTrim content = "" then .error .emptyContent
  else
    let lines := (splitOnChar '\n' (strTrim content).data).map
      fun l => (⟨l⟩ : String)
    match parseLines lines 1 with
    | .error e => .error e
    | .ok criteria =>
        if criteria.isEmpty then .error .noValidCriteria
        else
          let parsedTitle := (extractTitle lines).getD title
          match mkRubric parsedTitle "" criteria with
          | some r => .ok r
          | none => .error .constructionFailed

/-- Canonical (name, max_points) pair stored in the dict under a key. -/
def canonicalPair (d : List (String × RubricCriterion)) (k : String) : String × Rat :=
  match dictGet d k with
  | some c => (c.name, c.max_points)
  | none => (k, 0)

/-! ## Concrete sample values used by counterexamples and witnesses -/

/-- Criterion named Content, used by the C1 counterexample. -/
def contentCriterion : RubricCriterion :=
  ⟨"Content", "Covers all required topics in depth", 10, true⟩

/-- Criterion named content (lower case), used by the C1 counterexample. -/
def contentLowerCriterion : RubricCriterion :=
  ⟨"content", "Addresses the prompt fully and accurately", 10, true⟩

/-- Sample rubric with two criteria worth 25 and 75 points. -/
def sampleRubric : Rubric :=
  ⟨"Essay Rubric", "",
    [⟨"Clarity", "Ideas are expressed clearly and coherently", 25, true⟩,
      ⟨"Content", "Covers all required topics in depth", 75, true⟩]⟩

/-- Sample reported criteria list matching the sample rubric. -/
def sampleItems : List RawCriterionItem :=
  [⟨"Clarity", 20, "Mostly clear argument structure", none⟩,
    ⟨"Content", 60, "Covers most required topics", some "null"⟩]

/-- Sample well-formed oracle payload for the sample rubric. -/
def sampleResponse : RawResponse :=
  ⟨80, 100, sampleItems, "Good effort overall"⟩

/-- The same payload with an inflated reported total_score. -/
def inflatedResponse : RawResponse :=
  ⟨999, 100, sampleItems, "Good effort overall"⟩

/-- The same payload with a wrong reported max_possible. -/
def mismatchedResponse : RawResponse :=
  ⟨80, 99, sampleItems, "Good effort overall"⟩

/-- Criterion results the parser produces from the sample payload. -/
def sampleParsedCriteria : List CriterionResult :=
  [⟨"Clarity", 25, 20, "Mostly clear argument structure", none⟩,
    ⟨"Content", 75, 60, "Covers most required topics", none⟩]

/-- GradingResult the parser produces from the sample payload. -/
def sampleParsedResult : GradingResult :=
  ⟨"Essay Rubric", sampleParsedCriteria, "Good effort overall", 1, false, false⟩

/-- Rubric whose two criterion names collide only after case-folding; the
construction-time duplicate check does not reject it. -/
def caseCollidingRubric : Rubric :=
  ⟨"Essay Rubric", "", [contentCriterion, contentLowerCriterion]⟩

/-- Payload covering only one reported criterion against the
case-colliding rubric, with max_possible equal to the rubric total. -/
def caseCollidingResponse : RawResponse :=
  ⟨5, 20, [⟨"Content", 5, "Covers the main points", none⟩], "Decent work"⟩

/-- GradingResult the parser produces from the case-colliding payload. -/
def caseCollidingParsed : GradingResult :=
  ⟨"Essay Rubric", [⟨"content", 10, 5, "Covers the main points", none⟩],
    "Decent work", 1, false, false⟩

/-- GradingResult totalling 80 of 100, for consensus examples. -/
def result80 : GradingResult :=
  ⟨"Essay Rubric", [⟨"Overall quality", 100, 80, "Strong work with minor gaps", none⟩],
    "Good effort", 1, false, false⟩

/-- GradingResult totalling 85 of 100, for consensus examples. -/
def result85 : GradingResult :=
  ⟨"Essay Rubric", [⟨"Overall quality", 100, 85, "Strong work overall", none⟩],
    "Good effort", 1, false, false⟩

/-- GradingResult totalling 95 of 100, for consensus examples. -/
def result95 : GradingResult :=
  ⟨"Essay Rubric", [⟨"Overall quality", 100, 95, "Excellent work", none⟩],
    "Good effort", 1, false, false⟩

/-- Pass scoring 80. -/
def pass80 : GradingPass := ⟨result80, 80⟩

/-- Pass scoring 85. -/
def pass85 : GradingPass := ⟨result85, 85⟩

/-- Pass scoring 95. -/
def pass95 : GradingPass := ⟨result95, 95⟩

/-- GradingResult awarding 0.1 of 0.5, for the float tie example. -/
def resultTenth : GradingResult :=
  ⟨"Quiz Rubric", [⟨"Single criterion", 1/2, 1/10, "Very brief answer", none⟩],
    "Needs work", 1, false, false⟩

/-- GradingResult awarding 0.3 of 0.5, for the float tie example. -/
def resultThreeTenths : GradingResult :=
  ⟨"Quiz Rubric", [⟨"Single criterion", 1/2, 3/10, "Partial answer", none⟩],
    "Needs work", 1, false, false⟩

/-- Pass scoring 0.1. -/
def passTenth : GradingPass := ⟨resultTenth, 1/10⟩

/-- Pass scoring 0.3. -/
def passThreeTenths : GradingPass := ⟨resultThreeTenths, 3/10⟩

/-- Final result of the three-pass consensus example: the median pass
re-stamped with three passes and both flags set. -/
def consensusResult85 : GradingResult :=
  ⟨"Essay Rubric", [⟨"Overall quality", 100, 85, "Strong work overall", none⟩],
    "Good effort", 3, true, true⟩

/-- Criterion whose description contains the vocabulary word bad only as
part of the word badges, never as a token. -/
def badgeCriterion : RubricCriterion :=
  ⟨"Accuracy", "Counts the badges correctly", 10, true⟩

/-- Criterion with a genuinely vague description, from the repository
test suite. -/
def vagueCriterion : RubricCriterion :=
  ⟨"Criterion A", "The answer should be good and appropriate for the question", 10, true⟩

/-- Sample valid CriterionResult for witnesses. -/
def sampleCriterionResult : CriterionResult :=
  ⟨"Clarity", 25, 20, "Clear thesis, quoted from the answer", none⟩

/-- Sample valid GradingResult for witnesses. -/
def sampleGradingResult : GradingResult :=
  ⟨"Essay Rubric", [sampleCriterionResult], "Solid work overall", 1, false, false⟩

/-! ## Dictionary and processing lemmas shared by several claims -/

/-- Membership in a dict after insertion: the element is the inserted pair
or was already present. -/
theorem mem_dictInsert {p : String × RubricCriterion} {k : String}
    {v : RubricCriterion} {d : List (String × RubricCriterion)}
    (h : p ∈ dictInsert k v d) : p = (k, v) ∨ p ∈ d := by
  induction d with
  | nil => simpa [dictInsert] using h
  | cons q rest ih =>
      obtain ⟨k1, v1⟩ := q
      by_cases hk : k1 = k
      · simp only [dictInsert, if_pos hk] at h
        rcases List.mem_cons.mp h with h1 | h1
        · exact Or.inl (by rw [h1, hk])
        · exact Or.inr (List.mem_cons_of_mem _ h1)
      · simp only [dictInsert, if_neg hk] at h
        rcases List.mem_cons.mp h with h1 | h1
        · exact Or.inr (by rw [h1]; exact List.mem_cons_self _ _)
        · rcases ih h1 with h2 | h2
          · exact Or.inl h2
          · exact Or.inr (List.mem_cons_of_mem _ h2)

/-- Keys after insertion are the old keys possibly extended by the new key. -/
theorem mem_keys_dictInsert {a k : String} {v : RubricCriterion}
    {d : List (String × RubricCriterion)}
    (h : a ∈ (dictInsert k v d).map Prod.fst) :
    a = k ∨ a ∈ d.map Prod.fst := by
  obtain ⟨p, hp, hpa⟩ := List.mem_map.mp h
  rcases mem_dictInsert hp with h1 | h1
  · exact Or.inl (by rw [← hpa, h1])
  · exact Or.inr (hpa ▸ List.mem_map_of_mem Prod.fst h1)

/-- Insertion keeps the keys of the dict pairwise distinct. -/
theorem keysNodup_dictInsert {k : String} {v : RubricCriterion}
    {d : List (String × RubricCriterion)}
    (h : (d.map Prod.fst).Nodup) :
    ((dictInsert k v d).map Prod.fst).Nodup := by
  induction d with
  | nil => simp [dictInsert]
  | cons q rest ih =>
      obtain ⟨k1, v1⟩ := q
      simp only [List.map_cons, List.nodup_cons] at h
      by_cases hk : k1 = k
      · simp only [dictInsert, if_pos hk, List.map_cons, List.nodup_cons]
        exact ⟨h.1, h.2⟩
      · simp only [dictInsert, if_neg hk, List.map_cons, List.nodup_cons]
        refine ⟨?_, ih h.2⟩
        intro hmem
        rcases mem_keys_dictInsert hmem with h1 | h1
        · exact hk h1
        · exact h.1 h1

/-- Inserting a fresh key appends the pair at the end of the dict. -/
theorem dictInsert_eq_append {k : String} {v : RubricCriterion}
    {d : List (String × RubricCriterion)}
    (h : k ∉ d.map Prod.fst) : dictInsert k v d = d ++ [(k, v)] := by
  induction d with
  | nil => simp [dictInsert]
  | cons q rest ih =>
      obtain ⟨k1, v1⟩ := q
      simp only [List.map_cons, List.mem_cons] at h
      push_neg at h
      simp only [dictInsert, if_neg (Ne.symm h.1), List.cons_append]
      exact congrArg (List.cons (k1, v1)) (ih h.2)

/-- Every pair of the rubric lookup dict has the case-folded name of its
value as its key, and its value among the rubric criteria. -/
theorem mem_rubricLookup {r : Rubric} {p : String × RubricCriterion}
    (h : p ∈ rubricLookup r) :
    p.1 = strToLower p.2.name ∧ p.2 ∈ r.criteria := by
  suffices hgen : ∀ (cs : List RubricCriterion) (d : List (String × RubricCriterion)),
      p ∈ cs.foldl (fun d c => dictInsert (strToLower c.name) c d) d →
      p ∈ d ∨ ∃ c ∈ cs, p = (strToLower c.name, c) by
    rcases hgen r.criteria [] h with h1 | ⟨c, hc, hpc⟩
    · simp at h1
    · exact ⟨by rw [hpc], by rw [hpc]; exact hc⟩
  intro cs
  induction cs with
  | nil => intro d hd; exact Or.inl hd
  | cons c rest ih =>
      intro d hd
      rcases ih _ hd with h1 | ⟨c1, hc1, hpc1⟩
      · rcases mem_dictInsert h1 with h2 | h2
        · exact Or.inr ⟨c, List.mem_cons_self _ _, h2⟩
        · exact Or.inl h2
      · exact Or.inr ⟨c1, List.mem_cons_of_mem _ hc1, hpc1⟩

/-- The keys of the rubric lookup dict are pairwise distinct. -/
theorem rubricLookup_keys_nodup (r : Rubric) :
    ((rubricLookup r).map Prod.fst).Nodup := by
  suffices hgen : ∀ (cs : List RubricCriterion) (d : List (String × RubricCriterion)),
      (d.map Prod.fst).Nodup →
      ((cs.foldl (fun d c => dictInsert (strToLower c.name) c d) d).map Prod.fst).Nodup by
    exact hgen r.criteria [] (by simp)
  intro cs
  induction cs with
  | nil => intro d hd; exact hd
  | cons c rest ih => intro d hd; exact ih _ (keysNodup_dictInsert hd)

/-- When the case-folded criterion names are pairwise distinct, the rubric
lookup dict is exactly the criteria list keyed by case-folded name. -/
theorem rubricLookup_eq {r : Rubric}
    (h : (r.criteria.map fun c => strToLower c.name).Nodup) :
    rubricLookup r = r.criteria.map fun c => (strToLower c.name, c) := by
  suffices hgen : ∀ (cs : List RubricCriterion) (d : List (String × RubricCriterion)),
      (d.map Prod.fst ++ cs.map fun c => strToLower c.name).Nodup →
      cs.foldl (fun d c => dictInsert (strToLower c.name) c d) d =
        d ++ cs.map fun c => (strToLower c.name, c) by
    simpa using hgen r.criteria [] (by simpa using h)
  intro cs
  induction cs with
  | nil => intro d _; simp
  | cons c rest ih =>
      intro d hd
      have hfresh : strToLower c.name ∉ d.map Prod.fst := by
        intro hmem
        have := (List.nodup_append.mp hd).2.2
        exact this hmem (by simp)
      have hstep : dictInsert (strToLower c.name) c d = d ++ [(strToLower c.name, c)] :=
        dictInsert_eq_append hfresh
      have hd2 : ((d ++ [(strToLower c.name, c)]).map Prod.fst ++
          rest.map fun c => strToLower c.name).Nodup := by
        simpa [List.append_assoc] using hd
      calc (c :: rest).foldl (fun d c => dictInsert (strToLower c.name) c d) d
          = rest.foldl (fun d c => dictInsert (strToLower c.name) c d)
              (d ++ [(strToLower c.name, c)]) := by
            simp [List.foldl_cons, hstep]
        _ = (d ++ [(strToLower c.name, c)]) ++ rest.map fun c => (strToLower c.name, c) :=
            ih _ hd2
        _ = d ++ (c :: rest).map fun c => (strToLower c.name, c) := by simp

/-- Lookup of a present key in a dict with pairwise distinct keys returns
the stored value. -/
theorem dictGet_of_mem {d : List (String × RubricCriterion)} {k : String}
    {v : RubricCriterion} (hnd : (d.map Prod.fst).Nodup)
    (h : (k, v) ∈ d) : dictGet d k = some v := by
  induction d with
  | nil => simp at h
  | cons q rest ih =>
      obtain ⟨k1, v1⟩ := q
      simp only [List.map_cons, List.nodup_cons] at hnd
      rcases List.mem_cons.mp h with h1 | h1
      · injection h1 with hk hv
        subst hk
        subst hv
        unfold dictGet
        rw [List.find?_cons_of_pos _ (by simp)]
        rfl
      · by_cases hk : k1 = k
        · exfalso
          apply hnd.1
          rw [hk]
          exact List.mem_map_of_mem Prod.fst h1
        · have : dictGet rest k = some v := ih hnd.2 h1
          simp only [dictGet] at this ⊢
          rw [List.find?_cons_of_neg _ (by simpa using hk)]
          exact this

/-- Resolution by the exact-match rule with substring fallback only ever
returns a value stored in the dict, under its own case-folded name. -/
theorem resolve_mem {d : List (String × RubricCriterion)} {s : String}
    {rc : RubricCriterion}
    (coh : ∀ p ∈ d, p.1 = strToLower p.2.name)
    (h : resolveCriterion d s = some rc) : (strToLower rc.name, rc) ∈ d := by
  unfold resolveCriterion at h
  have hmem : ∃ p ∈ d, p.2 = rc := by
    cases hget : dictGet d (strToLower s) with
    | some c =>
        rw [hget] at h
        injection h with h
        subst h
        unfold dictGet at hget
        cases hfind : d.find? fun p => p.1 = strToLower s with
        | none => rw [hfind] at hget; simp at hget
        | some p =>
            rw [hfind] at hget
            simp only [Option.map_some'] at hget
            exact ⟨p, List.mem_of_find?_eq_some hfind, by injection hget⟩
    | none =>
        rw [hget] at h
        cases hfind : d.find? fun p =>
            isSubstring p.1.data (strToLower s).data ||
              isSubstring (strToLower s).data p.1.data with
        | none => rw [hfind] at h; simp at h
        | some p =>
            rw [hfind] at h
            simp only [Option.map_some'] at h
            exact ⟨p, List.mem_of_find?_eq_some hfind, by injection h⟩
  obtain ⟨p, hp, hpv⟩ := hmem
  have := coh p hp
  have hpeq : p = (strToLower rc.name, rc) := by
    obtain ⟨p1, p2⟩ := p
    simp only at hpv
    subst hpv
    simpa using this
  exact hpeq ▸ hp

/-- Specification of the per-item loop on success: the final seen set
extends the initial one by the case-folded names of the produced results in
order, every produced result carries the canonical name and max points of a
dict value, and distinctness of the seen set is preserved (the duplicate
check refuses any repetition). -/
theorem processItems_ok {d : List (String × RubricCriterion)}
    (coh : ∀ p ∈ d, p.1 = strToLower p.2.name) :
    ∀ (items : List RawCriterionItem) (i : Nat) (seen : List String)
      (rs : List CriterionResult) (seenF : List String),
      processItems d items i seen = .ok (rs, seenF) →
      seenF = seen ++ rs.map (fun r => strToLower r.criterion_name) ∧
      (∀ r ∈ rs, ∃ rc : RubricCriterion, (strToLower rc.name, rc) ∈ d ∧
        r.criterion_name = rc.name ∧ r.max_points = rc.max_points) ∧
      (seen.Nodup → seenF.Nodup) := by
  intro items
  induction items with
  | nil =>
      intro i seen rs seenF h
      simp only [processItems, Except.ok.injEq, Prod.mk.injEq] at h
      obtain ⟨h1, h2⟩ := h
      subst h1
      subst h2
      simp
  | cons item rest ih =>
      intro i seen rs seenF h
      simp only [processItems] at h
      split at h
      · exact absurd h (by simp)
      split at h
      · exact absurd h (by simp)
      rename_i rc hres
      split at h
      · exact absurd h (by simp)
      rename_i hdup
      split at h
      · exact absurd h (by simp)
      split at h
      · exact absurd h (by simp)
      split at h
      · exact absurd h (by simp)
      cases hrec : processItems d rest (i + 1) (seen ++ [strToLower rc.name]) with
      | error e =>
          rw [hrec] at h
          exact absurd h (by simp)
      | ok pr =>
          obtain ⟨rs0, sF0⟩ := pr
          rw [hrec] at h
          simp only [Except.ok.injEq, Prod.mk.injEq] at h
          obtain ⟨hrs, hsF⟩ := h
          subst hsF
          obtain ⟨ih1, ih2, ih3⟩ := ih (i + 1) (seen ++ [strToLower rc.name]) rs0 sF0 hrec
          refine ⟨?_, ?_, ?_⟩
          · rw [← hrs, ih1]
            simp
          · intro r hr
            rw [← hrs] at hr
            rcases List.mem_cons.mp hr with h1 | h1
            · refine ⟨rc, resolve_mem coh hres, ?_, ?_⟩
              · rw [h1]
              · rw [h1]
            · exact ih2 r h1
          · intro hnd
            apply ih3
            simp only [List.nodup_append, List.nodup_cons, List.nodup_nil]
            exact ⟨hnd, ⟨by simp, by simp⟩, by
              intro a ha
              simp only [List.mem_singleton]
              intro heq
              rw [heq] at ha
              exact hdup ha⟩

/-- Inversion of _parse_criteria_results on success: the loop succeeded
and afterwards every lookup key had been resolved. -/
theorem parseCriteriaResults_ok {rubric : Rubric} {items : List RawCriterionItem}
    {rs : List CriterionResult}
    (h : parseCriteriaResults rubric items = .ok rs) :
    ∃ seen, processItems (rubricLookup rubric) items 0 [] = .ok (rs, seen) ∧
      ∀ k ∈ (rubricLookup rubric).map Prod.fst, k ∈ seen := by
  unfold parseCriteriaResults at h
  simp only [] at h
  cases hrec : processItems (rubricLookup rubric) items 0 [] with
  | error e =>
      rw [hrec] at h
      exact absurd h (by simp)
  | ok pr =>
      obtain ⟨rs0, seen0⟩ := pr
      rw [hrec] at h
      simp only [] at h
      split at h
      · rename_i hempty
        simp only [Except.ok.injEq] at h
        subst h
        refine ⟨seen0, rfl, ?_⟩
        intro k hk
        by_contra hkn
        have hmem : k ∈ ((rubricLookup rubric).map fun p => p.1).filter
            fun k => k ∉ seen0 := by
          simp only [List.mem_filter, decide_eq_true_eq]
          exact ⟨by simpa using hk, hkn⟩
        rw [List.isEmpty_iff.mp hempty] at hmem
        simp at hmem
      · exact absurd h (by simp)

/-- Core coverage lemma: when the case-folded rubric names are pairwise
distinct, a successful parse produces criterion results whose canonical
(name, max_points) pairs are a permutation of the rubric criteria pairs:
every rubric criterion is resolved exactly once. -/
theorem parse_pairs_perm {rubric : Rubric} {items : List RawCriterionItem}
    {rs : List CriterionResult}
    (hnd : (rubric.criteria.map fun c => strToLower c.name).Nodup)
    (h : parseCriteriaResults rubric items = .ok rs) :
    (rs.map fun r => (r.criterion_name, r.max_points)).Perm
      (rubric.criteria.map fun c => (c.name, c.max_points)) := by
  obtain ⟨seen, hproc, hcover⟩ := parseCriteriaResults_ok h
  have coh : ∀ p ∈ rubricLookup rubric, p.1 = strToLower p.2.name :=
    fun p hp => (mem_rubricLookup hp).1
  obtain ⟨hseen, hmem, hnodup⟩ := processItems_ok coh items 0 [] rs seen hproc
  have hseen2 : seen = rs.map fun r => strToLower r.criterion_name := by
    simpa using hseen
  have hseenNodup : seen.Nodup := hnodup (by simp)
  have hkeysNodup : ((rubricLookup rubric).map Prod.fst).Nodup :=
    rubricLookup_keys_nodup rubric
  have hsub1 : ∀ k ∈ seen, k ∈ (rubricLookup rubric).map Prod.fst := by
    rw [hseen2]
    intro k hk
    obtain ⟨r, hr, hkr⟩ := List.mem_map.mp hk
    obtain ⟨rc, hrcmem, hname, _⟩ := hmem r hr
    subst hkr
    rw [hname]
    exact List.mem_map_of_mem Prod.fst hrcmem
  have hperm : seen.Perm ((rubricLookup rubric).map Prod.fst) :=
    (List.perm_ext_iff_of_nodup hseenNodup hkeysNodup).mpr
      (fun a => ⟨fun ha => hsub1 a ha, fun ha => hcover a ha⟩)
  have hmap1 : seen.map (canonicalPair (rubricLookup rubric)) =
      rs.map fun r => (r.criterion_name, r.max_points) := by
    rw [hseen2, List.map_map]
    apply List.map_congr_left
    intro r hr
    obtain ⟨rc, hrcmem, hname, hmax⟩ := hmem r hr
    have hget : dictGet (rubricLookup rubric) (strToLower rc.name) = some rc :=
      dictGet_of_mem hkeysNodup hrcmem
    simp [canonicalPair, Function.comp, hget, hname, hmax]
  have hkeys : (rubricLookup rubric).map Prod.fst =
      rubric.criteria.map fun c => strToLower c.name := by
    rw [rubricLookup_eq hnd, List.map_map]
    rfl
  have hmap2 : ((rubricLookup rubric).map Prod.fst).map (canonicalPair (rubricLookup rubric)) =
      rubric.criteria.map fun c => (c.name, c.max_points) := by
    rw [hkeys, List.map_map]
    apply List.map_congr_left
    intro c hc
    have hcmem : (strToLower c.name, c) ∈ rubricLookup rubric := by
      rw [rubricLookup_eq hnd]
      exact List.mem_map_of_mem _ hc
    have hget : dictGet (rubricLookup rubric) (strToLower c.name) = some c :=
      dictGet_of_mem hkeysNodup hcmem
    simp [canonicalPair, Function.comp, hget]
  rw [← hmap1, ← hmap2]
  exact hperm.map _

/-! ## Claims C1 and C2 -/

/-- C1 counterexample: the two criteria Content and content have names that
are equal after case-folding, yet Rubric construction succeeds, refuting
the claim that construction rejects duplicate names case-insensitively. -/
theorem c1_counterexample :
    strToLower "Content" = strToLower "content" ∧
      mkRubric "Essay Rubric" "" [contentCriterion, contentLowerCriterion] ≠ none := by
  decide

/-- C1 (amended): Rubric construction rejects duplicate criterion names
compared exactly (case-sensitively): whenever the list of names has a
repetition, construction fails.  Names differing only in case are accepted,
as the counterexample shows. -/
theorem c1_theorem (title description : String) (criteria : List RubricCriterion)
    (h : ¬ (criteria.map fun c => c.name).Nodup) :
    mkRubric title description criteria = none := by
  have hdup : noDuplicateNames criteria = false := by
    unfold noDuplicateNames
    rw [beq_eq_false_iff_ne]
    intro hlen
    exact h (List.dedup_eq_self.mp
      ((criteria.map fun c => c.name).dedup_sublist.eq_of_length hlen))
  unfold mkRubric
  rw [if_neg]
  intro hcond
  rw [hdup] at hcond
  exact absurd hcond.2.2.2 (by simp)

/-- C1 witness: construction with an exactly repeated name fails. -/
theorem c1_theorem_witness :
    mkRubric "Essay Rubric" "" [contentCriterion, contentCriterion] = none :=
  c1_theorem "Essay Rubric" "" [contentCriterion, contentCriterion] (by decide)

/-- C2: every successfully constructed CriterionResult satisfies
0 ≤ awarded_points ≤ max_points, and every successfully constructed
GradingResult satisfies 0 ≤ total_awarded ≤ total_max and
0 ≤ percentage_score ≤ 100. -/
theorem c2 :
    (∀ c : CriterionResult, c.valid →
      0 ≤ c.awarded_points ∧ c.awarded_points ≤ c.max_points) ∧
    (∀ g : GradingResult, g.valid →
      (0 ≤ g.total_awarded ∧ g.total_awarded ≤ g.total_max) ∧
      (0 ≤ g.percentage_score ∧ g.percentage_score ≤ 100)) := by
  constructor
  · intro c hc
    exact ⟨hc.1, hc.2.2⟩
  · intro g hg
    have hA : 0 ≤ g.total_awarded := by
      apply List.sum_nonneg
      intro x hx
      obtain ⟨r, hr, hrx⟩ := List.mem_map.mp hx
      exact hrx ▸ (hg.2.1 r hr).1
    have hAM : g.total_awarded ≤ g.total_max := by
      apply List.sum_le_sum
      intro r hr
      exact (hg.2.1 r hr).2.2
    refine ⟨⟨hA, hAM⟩, ?_⟩
    unfold GradingResult.percentage_score
    by_cases hM : g.total_max = 0
    · simp [hM]
    · have hMpos : 0 < g.total_max := lt_of_le_of_ne (hA.trans hAM) (Ne.symm hM)
      rw [if_neg hM]
      constructor
      · positivity
      · have hq : g.total_awarded / g.total_max ≤ 1 := (div_le_one hMpos).mpr hAM
        nlinarith [hq]

/-- C2 witness: the invariants evaluated at concrete sample values. -/
theorem c2_witness :
    (0 ≤ sampleCriterionResult.awarded_points ∧
      sampleCriterionResult.awarded_points ≤ sampleCriterionResult.max_points) ∧
    ((0 ≤ sampleGradingResult.total_awarded ∧
      sampleGradingResult.total_awarded ≤ sampleGradingResult.total_max) ∧
      (0 ≤ sampleGradingResult.percentage_score ∧
        sampleGradingResult.percentage_score ≤ 100)) :=
  ⟨c2.1 sampleCriterionResult (by decide),
    c2.2 sampleGradingResult (by decide)⟩

/-- Inversion of _validate_and_convert on success: the criteria parse
succeeded, the reported max_possible equals the rubric total, and the
result is built from the rubric title, the accepted criterion results and
the reported feedback. -/
theorem validateAndConvert_ok {rubric : Rubric} {data : RawResponse}
    {g : GradingResult} (h : validateAndConvert rubric data = .ok g) :
    ∃ rs, parseCriteriaResults rubric data.criteria_results = .ok rs ∧
      data.max_possible = rubric.total_max_points ∧
      g = ⟨rubric.title, rs, data.overall_feedback, 1, false, false⟩ := by
  unfold validateAndConvert at h
  cases hp : parseCriteriaResults rubric data.criteria_results with
  | error e =>
      rw [hp] at h
      exact absurd h (by simp)
  | ok rs =>
      rw [hp] at h
      simp only [] at h
      split at h
      · exact absurd h (by simp)
      · rename_i hne
        simp only [Except.ok.injEq] at h
        exact ⟨rs, rfl, not_not.mp hne, h.symm⟩

/-- C5: a parsed max_possible differing from the rubric total always makes
result conversion fail, and when every other part of the payload is
well-formed (the criteria list parses) the failure is specifically the
max-possible mismatch. -/
theorem c5 :
    (∀ (rubric : Rubric) (data : RawResponse),
      data.max_possible ≠ rubric.total_max_points →
      ∃ e, validateAndConvert rubric data = .error e) ∧
    (∀ (rubric : Rubric) (data : RawResponse) (rs : List CriterionResult),
      parseCriteriaResults rubric data.criteria_results = .ok rs →
      data.max_possible ≠ rubric.total_max_points →
      validateAndConvert rubric data =
        .error (.maxPossibleMismatch data.max_possible rubric.total_max_points)) := by
  constructor
  · intro rubric data hne
    cases hv : validateAndConvert rubric data with
    | error e => exact ⟨e, rfl⟩
    | ok g =>
        obtain ⟨rs, _, hmax, _⟩ := validateAndConvert_ok hv
        exact absurd hmax hne
  · intro rubric data rs hp hne
    unfold validateAndConvert
    rw [hp]
    simp only []
    rw [if_pos hne]

/-- C5 witness: a payload reporting max_possible 99 against the
100-point sample rubric is rejected with the mismatch failure. -/
theorem c5_witness :
    validateAndConvert sampleRubric mismatchedResponse =
      .error (.maxPossibleMismatch mismatchedResponse.max_possible
        sampleRubric.total_max_points) :=
  c5.2 sampleRubric mismatchedResponse sampleParsedCriteria (by rfl)
    (by norm_num [mismatchedResponse, sampleRubric, Rubric.total_max_points])

/-- C6: result parsing succeeds only when every rubric criterion is
resolved exactly once (first conjunct, for rubrics whose case-folded names
are distinct); an unresolvable reported name fails with the
unknown-criterion failure; an entry resolving to an already-resolved
criterion fails with the duplicate failure; and unresolved criteria left
after the loop fail with the missing-criteria failure listing canonical
names. -/
theorem c6 :
    (∀ (rubric : Rubric) (items : List RawCriterionItem) (rs : List CriterionResult),
      (rubric.criteria.map fun c => strToLower c.name).Nodup →
      parseCriteriaResults rubric items = .ok rs →
      (rs.map fun r => r.criterion_name).Perm (rubric.criteria.map fun c => c.name)) ∧
    (∀ (d : List (String × RubricCriterion)) (item : RawCriterionItem)
      (rest : List RawCriterionItem) (i : Nat) (seen : List String),
      item.criterion ≠ "" →
      resolveCriterion d item.criterion = none →
      processItems d (item :: rest) i seen = .error (.unknownCriterion item.criterion)) ∧
    (∀ (d : List (String × RubricCriterion)) (item : RawCriterionItem)
      (rest : List RawCriterionItem) (i : Nat) (seen : List String)
      (rc : RubricCriterion),
      item.criterion ≠ "" →
      resolveCriterion d item.criterion = some rc →
      strToLower rc.name ∈ seen →
      processItems d (item :: rest) i seen = .error (.duplicateCriterion item.criterion)) ∧
    (∀ (rubric : Rubric) (items : List RawCriterionItem)
      (rs : List CriterionResult) (seen : List String),
      processItems (rubricLookup rubric) items 0 [] = .ok (rs, seen) →
      ((rubricLookup rubric).map fun p => p.1).filter (fun k => k ∉ seen) ≠ [] →
      parseCriteriaResults rubric items = .error (.missingCriteria
        ((((rubricLookup rubric).map fun p => p.1).filter (fun k => k ∉ seen)).map fun k =>
          match dictGet (rubricLookup rubric) k with
          | some c => c.name
          | none => k))) := by
  refine ⟨?_, ?_, ?_, ?_⟩
  · intro rubric items rs hnd hok
    have hpairs := (parse_pairs_perm hnd hok).map Prod.fst
    rw [List.map_map, List.map_map] at hpairs
    exact hpairs
  · intro d item rest i seen hne hres
    simp [processItems, hne, hres]
  · intro d item rest i seen rc hne hres hseen
    simp [processItems, hne, hres, hseen]
  · intro rubric items rs seen hproc hmiss
    unfold parseCriteriaResults
    simp only []
    rw [hproc]
    simp only []
    rw [if_neg]
    rw [List.isEmpty_iff]
    exact hmiss

/-- C6 witness: the four behaviours at concrete inputs against the sample
rubric. -/
theorem c6_witness :
    ((sampleParsedCriteria.map fun r => r.criterion_name).Perm
      (sampleRubric.criteria.map fun c => c.name)) ∧
    (processItems (rubricLookup sampleRubric)
        [⟨"Organization", 20, "well ordered", none⟩] 0 [] =
      .error (.unknownCriterion "Organization")) ∧
    (processItems (rubricLookup sampleRubric)
        [⟨"Clarity", 5, "again", none⟩] 0 ["clarity"] =
      .error (.duplicateCriterion "Clarity")) ∧
    (parseCriteriaResults sampleRubric [⟨"Clarity", 20, "only this one", none⟩] =
      .error (.missingCriteria ["Content"])) := by
  refine ⟨?_, ?_, ?_, ?_⟩
  · exact c6.1 sampleRubric sampleItems sampleParsedCriteria (by decide) (by rfl)
  · exact c6.2.1 (rubricLookup sampleRubric) ⟨"Organization", 20, "well ordered", none⟩
      [] 0 [] (by decide) (by rfl)
  · exact c6.2.2.1 (rubricLookup sampleRubric) ⟨"Clarity", 5, "again", none⟩
      [] 0 ["clarity"] ⟨"Clarity", "Ideas are expressed clearly and coherently", 25, true⟩
      (by decide) (by rfl) (by decide)
  · exact c6.2.2.2 sampleRubric [⟨"Clarity", 20, "only this one", none⟩]
      [⟨"Clarity", 25, 20, "only this one", none⟩] ["clarity"] (by rfl) (by decide)

/-- C6 counterexample: against a rubric whose two criterion names collide
after case-folding (which construction admits), parsing succeeds although
the rubric criterion named Content is never carried into the results:
claim quantified over all rubrics fails. -/
theorem c6_counterexample :
    parseCriteriaResults caseCollidingRubric
        [⟨"Content", 5, "Covers the main points", none⟩] =
      .ok [⟨"content", 10, 5, "Covers the main points", none⟩] ∧
    caseCollidingRubric.criteria.map (fun c => c.name) = ["Content", "content"] ∧
    ([(⟨"content", 10, 5, "Covers the main points", none⟩ : CriterionResult)].map
      fun r => r.criterion_name) = ["content"] := by
  refine ⟨by rfl, by rfl, by rfl⟩

/-- C7 counterexample: against a rubric whose criterion names collide
after case-folding (which construction admits), the parser accepts a
payload resolving both criteria to one dict entry, and the produced
total_max (10) differs from the rubric total_max_points (20), refuting the
unconditional claim. -/
theorem c7_counterexample :
    validateAndConvert caseCollidingRubric caseCollidingResponse =
      .ok caseCollidingParsed ∧
    caseCollidingParsed.total_max = 10 ∧
    caseCollidingRubric.total_max_points = 20 := by
  refine ⟨?_, ?_, ?_⟩
  · have hp : parseCriteriaResults caseCollidingRubric
        caseCollidingResponse.criteria_results =
        .ok caseCollidingParsed.criteria_results := by rfl
    unfold validateAndConvert
    rw [hp]
    simp only []
    rw [if_neg (by
      norm_num [caseCollidingResponse, caseCollidingRubric, Rubric.total_max_points,
        contentCriterion, contentLowerCriterion])]
    rfl
  · norm_num [caseCollidingParsed, GradingResult.total_max]
  · norm_num [caseCollidingRubric, Rubric.total_max_points, contentCriterion,
      contentLowerCriterion]

/-- C7 (amended): every accepted CriterionResult carries the matched
rubric criterion's canonical name and max_points, and provided the
rubric's criterion names are pairwise distinct after case-folding, the
accepted result's total_max equals the rubric's total_max_points. -/
theorem c7_theorem :
    (∀ (rubric : Rubric) (items : List RawCriterionItem) (rs : List CriterionResult),
      parseCriteriaResults rubric items = .ok rs →
      ∀ r ∈ rs, ∃ c ∈ rubric.criteria,
        r.criterion_name = c.name ∧ r.max_points = c.max_points) ∧
    (∀ (rubric : Rubric) (data : RawResponse) (g : GradingResult),
      (rubric.criteria.map fun c => strToLower c.name).Nodup →
      validateAndConvert rubric data = .ok g →
      g.total_max = rubric.total_max_points) := by
  constructor
  · intro rubric items rs hok r hr
    obtain ⟨seen, hproc, _⟩ := parseCriteriaResults_ok hok
    have coh : ∀ p ∈ rubricLookup rubric, p.1 = strToLower p.2.name :=
      fun p hp => (mem_rubricLookup hp).1
    obtain ⟨_, hmem, _⟩ := processItems_ok coh items 0 [] rs seen hproc
    obtain ⟨rc, hrcmem, hname, hmax⟩ := hmem r hr
    exact ⟨rc, (mem_rubricLookup hrcmem).2, hname, hmax⟩
  · intro rubric data g hnd hok
    obtain ⟨rs, hp, _, hg⟩ := validateAndConvert_ok hok
    have hpairs := (parse_pairs_perm hnd hp).map Prod.snd
    rw [List.map_map, List.map_map] at hpairs
    have hsum := hpairs.sum_eq
    subst hg
    exact hsum

/-- C7 witness: the amended statement at the sample payload. -/
theorem c7_witness :
    (∀ r ∈ sampleParsedCriteria, ∃ c ∈ sampleRubric.criteria,
      r.criterion_name = c.name ∧ r.max_points = c.max_points) ∧
    sampleParsedResult.total_max = sampleRubric.total_max_points := by
  constructor
  · exact c7_theorem.1 sampleRubric sampleItems sampleParsedCriteria (by rfl)
  · exact c7_theorem.2 sampleRubric sampleResponse sampleParsedResult (by decide)
      (by
        have hp : parseCriteriaResults sampleRubric sampleResponse.criteria_results =
            .ok sampleParsedCriteria := by rfl
        unfold validateAndConvert
        rw [hp]
        simp only []
        rw [if_neg (by norm_num [sampleResponse, sampleRubric, Rubric.total_max_points])]
        rfl)

/-- C8: the reported total_score never influences the outcome of result
conversion; on success the produced result carries exactly the accepted
criterion results, and its total_awarded is their recomputed sum; at the
concrete sample, a reported total of 999 is silently ignored and the
recomputed sum 80 is carried. -/
theorem c8 :
    (∀ (rubric : Rubric) (data : RawResponse) (t : Rat),
      validateAndConvert rubric { data with total_score := t } =
        validateAndConvert rubric data) ∧
    (∀ (rubric : Rubric) (data : RawResponse) (rs : List CriterionResult)
      (g : GradingResult),
      parseCriteriaResults rubric data.criteria_results = .ok rs →
      validateAndConvert rubric data = .ok g →
      g.criteria_results = rs ∧
        g.total_awarded = (rs.map fun r => r.awarded_points).sum) ∧
    (validateAndConvert sampleRubric inflatedResponse = .ok sampleParsedResult ∧
      inflatedResponse.total_score = 999 ∧
      sampleParsedResult.total_awarded = 80) := by
  refine ⟨?_, ?_, ?_, ?_, ?_⟩
  · intro rubric data t
    rfl
  · intro rubric data rs g hp hok
    obtain ⟨rs0, hp0, _, hg⟩ := validateAndConvert_ok hok
    rw [hp] at hp0
    injection hp0 with hrs
    subst hrs
    subst hg
    exact ⟨rfl, rfl⟩
  · have hp : parseCriteriaResults sampleRubric inflatedResponse.criteria_results =
        .ok sampleParsedCriteria := by rfl
    unfold validateAndConvert
    rw [hp]
    simp only []
    rw [if_neg (by norm_num [inflatedResponse, sampleRubric, Rubric.total_max_points])]
    rfl
  · rfl
  · norm_num [sampleParsedResult, sampleParsedCriteria, GradingResult.total_awarded]

/-- C8 witness: the total_score-independence and sum conjuncts evaluated
at the sample payload. -/
theorem c8_witness :
    (validateAndConvert sampleRubric { sampleResponse with total_score := 999 } =
      validateAndConvert sampleRubric sampleResponse) ∧
    (sampleParsedResult.criteria_results = sampleParsedCriteria ∧
      sampleParsedResult.total_awarded =
        (sampleParsedCriteria.map fun r => r.awarded_points).sum) := by
  constructor
  · exact c8.1 sampleRubric sampleResponse 999
  · exact c8.2.1 sampleRubric sampleResponse sampleParsedCriteria sampleParsedResult
      (by rfl)
      (by
        have hp : parseCriteriaResults sampleRubric sampleResponse.criteria_results =
            .ok sampleParsedCriteria := by rfl
        unfold validateAndConvert
        rw [hp]
        simp only []
        rw [if_neg (by norm_num [sampleResponse, sampleRubric, Rubric.total_max_points])]
        rfl)

/-- Specification of Python min with a key over a nonempty list: the
returned element is in the list, its key is minimal, and every earlier
element has a strictly larger key (first minimizer wins). -/
theorem argminFirst_spec {α : Type} (f : α → Rat) :
    ∀ (xs : List α) (x : α),
      ∃ (i : Nat) (hi : i < (x :: xs).length),
        argminFirst f x xs = (x :: xs).get ⟨i, hi⟩ ∧
        (∀ (j : Nat) (hj : j < (x :: xs).length),
          f ((x :: xs).get ⟨i, hi⟩) ≤ f ((x :: xs).get ⟨j, hj⟩)) ∧
        (∀ (j : Nat) (hj : j < (x :: xs).length), j < i →
          f ((x :: xs).get ⟨i, hi⟩) < f ((x :: xs).get ⟨j, hj⟩)) := by
  intro xs
  induction xs with
  | nil =>
      intro x
      refine ⟨0, by simp, rfl, ?_, ?_⟩
      · intro j hj
        have hj0 : j = 0 := by simpa using hj
        subst hj0
        exact le_refl _
      · intro j hj hji
        exact absurd hji (by omega)
  | cons y ys ih =>
      intro x
      by_cases hc : f y < f x
      · have hstep : argminFirst f x (y :: ys) = argminFirst f y ys := by
          unfold argminFirst
          rw [List.foldl_cons, if_pos hc]
        obtain ⟨i, hi, heq, hle, hlt⟩ := ih y
        refine ⟨i + 1, by simpa using Nat.succ_lt_succ hi, ?_, ?_, ?_⟩
        · rw [hstep, heq]
          rfl
        · intro j hj
          cases j with
          | zero =>
              exact le_of_lt (lt_of_le_of_lt (hle 0 (by simp)) hc)
          | succ j =>
              exact hle j (Nat.lt_of_succ_lt_succ hj)
        · intro j hj hji
          cases j with
          | zero =>
              exact lt_of_le_of_lt (hle 0 (by simp)) hc
          | succ j =>
              exact hlt j (Nat.lt_of_succ_lt_succ hj) (Nat.lt_of_succ_lt_succ hji)
      · have hstep : argminFirst f x (y :: ys) = argminFirst f x ys := by
          unfold argminFirst
          rw [List.foldl_cons, if_neg hc]
        have hxy : f x ≤ f y := not_lt.mp hc
        obtain ⟨i, hi, heq, hle, hlt⟩ := ih x
        cases i with
        | zero =>
            refine ⟨0, by simp, ?_, ?_, ?_⟩
            · rw [hstep, heq]
              rfl
            · intro j hj
              cases j with
              | zero => exact le_refl _
              | succ j =>
                  cases j with
                  | zero => exact hxy
                  | succ j => exact hle (j + 1) (by simpa using Nat.lt_of_succ_lt_succ hj)
            · intro j hj hji
              exact absurd hji (by omega)
        | succ k =>
            have hk : k + 1 < (x :: ys).length := hi
            refine ⟨k + 2, by simpa using Nat.succ_lt_succ hk, ?_, ?_, ?_⟩
            · rw [hstep, heq]
              rfl
            · intro j hj
              cases j with
              | zero => exact hle 0 (by simp)
              | succ j =>
                  cases j with
                  | zero => exact le_of_lt (lt_of_lt_of_le (hlt 0 (by simp) (by omega)) hxy)
                  | succ j => exact hle (j + 1) (by simpa using Nat.lt_of_succ_lt_succ hj)
            · intro j hj hji
              cases j with
              | zero => exact hlt 0 (by simp) (by omega)
              | succ j =>
                  cases j with
                  | zero => exact lt_of_lt_of_le (hlt 0 (by simp) (by omega)) hxy
                  | succ j =>
                      exact hlt (j + 1) (by simpa using Nat.lt_of_succ_lt_succ hj) (by omega)

/-- Squeeze characterization of Nat.log2. -/
theorem log2_eq_of {n k : Nat} (h1 : 2 ^ k ≤ n) (h2 : n < 2 ^ (k + 1)) :
    Nat.log2 n = k := by
  have hn : n ≠ 0 := by
    have := Nat.two_pow_pos k
    omega
  have ha := Nat.log2_self_le hn
  have hb := @Nat.lt_log2_self n
  rcases Nat.lt_trichotomy (Nat.log2 n) k with hlt | heq | hgt
  · exfalso
    have hc : (2:Nat) ^ (Nat.log2 n + 1) ≤ 2 ^ k :=
      Nat.pow_le_pow_right (by norm_num) (by omega)
    omega
  · exact heq
  · exfalso
    have hc : (2:Nat) ^ (k + 1) ≤ 2 ^ (Nat.log2 n) :=
      Nat.pow_le_pow_right (by norm_num) (by omega)
    omega

/-- The power-of-two helper agrees with the integer power. -/
theorem ratExp2_eq_zpow (e : Int) : ratExp2 e = (2 : Rat) ^ e := by
  unfold ratExp2
  split
  · rename_i h
    rw [← zpow_natCast, Int.toNat_of_nonneg h]
  · rename_i h
    push_neg at h
    rw [← zpow_natCast, Int.toNat_of_nonneg (by omega : (0:Int) ≤ -e), ← zpow_neg,
      neg_neg]

/-- Correctness of the binade computation: binExp returns the exponent
whose binade contains the input. -/
theorem binExp_correct {a : Rat} {e : Int}
    (hlo : ratExp2 e ≤ a) (hhi : a < ratExp2 (e + 1)) :
    binExp a = e := by
  rw [ratExp2_eq_zpow] at hlo hhi
  have h2 : (1:Rat) ≤ 2 := by norm_num
  have ha : 0 < a := lt_of_lt_of_le (zpow_pos (by norm_num) e) hlo
  unfold binExp
  by_cases h1 : 1 ≤ a
  · rw [if_pos h1]
    have he : 0 ≤ e := by
      by_contra hneg
      push_neg at hneg
      have hle : (2:Rat) ^ (e + 1) ≤ (2:Rat) ^ (0:Int) :=
        zpow_le_zpow_right₀ h2 (by omega)
      rw [zpow_zero] at hle
      linarith
    have hfl0 : (0:Int) ≤ ⌊a⌋ := by
      rw [Int.le_floor]
      push_cast
      linarith
    have hfln : ((⌊a⌋.toNat : Int)) = ⌊a⌋ := Int.toNat_of_nonneg hfl0
    have hen : ((e.toNat : Int)) = e := Int.toNat_of_nonneg he
    have hlowN : 2 ^ e.toNat ≤ ⌊a⌋.toNat := by
      have hz : ((2:Int) ^ e.toNat) ≤ ⌊a⌋ := by
        rw [Int.le_floor]
        have hc : (((2:Int) ^ e.toNat : Int) : Rat) = (2:Rat) ^ ((e.toNat : Nat) : Int) := by
          push_cast
          rw [zpow_natCast]
        rw [hc, hen]
        exact hlo
      have hz2 : ((2 ^ e.toNat : Nat) : Int) ≤ ((⌊a⌋.toNat : Nat) : Int) := by
        push_cast
        rw [hfln]
        exact hz
      exact_mod_cast hz2
    have hupN : ⌊a⌋.toNat < 2 ^ (e.toNat + 1) := by
      have hq : ((⌊a⌋.toNat : Nat) : Rat) < (((2 ^ (e.toNat + 1) : Nat) : Nat) : Rat) := by
        have hcast : ((⌊a⌋.toNat : Nat) : Rat) = ((⌊a⌋ : Int) : Rat) := by
          rw [← hfln]
          norm_cast
        rw [hcast]
        calc ((⌊a⌋ : Int) : Rat) ≤ a := Int.floor_le a
          _ < (2:Rat) ^ (e + 1) := hhi
          _ = (((2 ^ (e.toNat + 1) : Nat) : Nat) : Rat) := by
              rw [show e + 1 = ((e.toNat + 1 : Nat) : Int) from by omega, zpow_natCast]
              push_cast
              ring
      exact_mod_cast hq
    rw [log2_eq_of hlowN hupN, hen]
  · push_neg at h1
    rw [if_neg (not_le.mpr h1)]
    simp only []
    have he1 : e + 1 ≤ 0 := by
      by_contra hpos
      push_neg at hpos
      have hle : (2:Rat) ^ (0:Int) ≤ (2:Rat) ^ e := zpow_le_zpow_right₀ h2 (by omega)
      rw [zpow_zero] at hle
      exact absurd (le_trans hle hlo) (not_le.mpr h1)
    set k := (-(e+1)).toNat with hkdef
    have hke : ((k : Nat) : Int) = -(e+1) := Int.toNat_of_nonneg (by omega)
    have hbl : (2:Rat) ^ ((k : Nat) : Int) < a⁻¹ := by
      rw [hke, zpow_neg]
      exact inv_strictAnti₀ ha hhi
    have hbu : a⁻¹ ≤ (2:Rat) ^ (((k : Nat) : Int) + 1) := by
      have hkk : ((k : Nat) : Int) + 1 = -e := by omega
      rw [hkk, zpow_neg]
      exact inv_anti₀ (zpow_pos (by norm_num) e) hlo
    have hfl0 : (0:Int) ≤ ⌊a⁻¹⌋ := by
      rw [Int.le_floor]
      push_cast
      have := zpow_pos (show (0:Rat) < 2 from by norm_num) ((k : Nat) : Int)
      linarith
    have hfln : ((⌊a⁻¹⌋.toNat : Int)) = ⌊a⁻¹⌋ := Int.toNat_of_nonneg hfl0
    have hlowN : 2 ^ k ≤ ⌊a⁻¹⌋.toNat := by
      have hz : ((2:Int) ^ k) ≤ ⌊a⁻¹⌋ := by
        rw [Int.le_floor]
        have hc : (((2:Int) ^ k : Int) : Rat) = (2:Rat) ^ ((k : Nat) : Int) := by
          push_cast
          rw [zpow_natCast]
        rw [hc]
        exact le_of_lt hbl
      have hz2 : ((2 ^ k : Nat) : Int) ≤ ((⌊a⁻¹⌋.toNat : Nat) : Int) := by
        push_cast
        rw [hfln]
        exact hz
      exact_mod_cast hz2
    have hupN : ⌊a⁻¹⌋.toNat ≤ 2 ^ (k + 1) := by
      have hq : ((⌊a⁻¹⌋.toNat : Nat) : Rat) ≤ (((2 ^ (k + 1) : Nat) : Nat) : Rat) := by
        have hcast : ((⌊a⁻¹⌋.toNat : Nat) : Rat) = ((⌊a⁻¹⌋ : Int) : Rat) := by
          rw [← hfln]
          norm_cast
        rw [hcast]
        calc ((⌊a⁻¹⌋ : Int) : Rat) ≤ a⁻¹ := Int.floor_le _
          _ ≤ (2:Rat) ^ (((k : Nat) : Int) + 1) := hbu
          _ = (((2 ^ (k + 1) : Nat) : Nat) : Rat) := by
              rw [show (((k : Nat) : Int) + 1) = ((k + 1 : Nat) : Int) from by push_cast; ring,
                zpow_natCast]
              push_cast
              ring
      exact_mod_cast hq
    rcases eq_or_lt_of_le hupN with heq2 | hlt2
    · have hflval : (⌊a⁻¹⌋ : Int) = (2:Int) ^ (k + 1) := by
        rw [← hfln, heq2]
        push_cast
        ring
      have hbeq : (2:Rat) ^ (((k : Nat) : Int) + 1) ≤ a⁻¹ := by
        have hc : ((⌊a⁻¹⌋ : Int) : Rat) ≤ a⁻¹ := Int.floor_le _
        rw [hflval] at hc
        calc (2:Rat) ^ (((k : Nat) : Int) + 1)
            = (((2:Int) ^ (k + 1) : Int) : Rat) := by
              rw [show (((k : Nat) : Int) + 1) = ((k + 1 : Nat) : Int) from by push_cast; ring,
                zpow_natCast]
              push_cast
              ring
          _ ≤ a⁻¹ := hc
      have hbeq2 : a⁻¹ = (2:Rat) ^ (((k : Nat) : Int) + 1) := le_antisymm hbu hbeq
      have hj : Nat.log2 ⌊a⁻¹⌋.toNat = k + 1 := by
        rw [heq2]
        exact log2_eq_of (le_refl _)
          (Nat.pow_lt_pow_right (by norm_num) (Nat.lt_succ_self _))
      rw [hj]
      have hcond : a * ratExp2 ((k + 1 : Nat) : Int) = 1 := by
        rw [ratExp2_eq_zpow]
        have hav : a = ((2:Rat) ^ (((k : Nat) : Int) + 1))⁻¹ := by
          rw [← hbeq2, inv_inv]
        rw [hav, show (((k + 1 : Nat) : Nat) : Int) = ((k : Nat) : Int) + 1 from by push_cast; ring]
        exact inv_mul_cancel₀ (ne_of_gt (zpow_pos (by norm_num) _))
      rw [if_pos hcond]
      push_cast
      omega
    · have hj : Nat.log2 ⌊a⁻¹⌋.toNat = k := log2_eq_of hlowN hlt2
      rw [hj]
      have hcond : a * ratExp2 ((k : Nat) : Int) ≠ 1 := by
        rw [ratExp2_eq_zpow]
        have hlt3 : a * (2:Rat) ^ ((k : Nat) : Int) < 1 := by
          have h4 : a * (2:Rat) ^ ((k : Nat) : Int) < a * a⁻¹ :=
            mul_lt_mul_of_pos_left hbl ha
          rw [mul_inv_cancel₀ (ne_of_gt ha)] at h4
          exact h4
        exact ne_of_lt hlt3
      rw [if_neg hcond]
      omega

/-- Evaluation of roundHalfEven below the midpoint. -/
theorem roundHalfEven_eq_of_lt {x : Rat} {n : Int}
    (h1 : (n : Rat) ≤ x) (h2 : x < (n : Rat) + 1/2) :
    roundHalfEven x = n := by
  have hfl : ⌊x⌋ = n := Int.floor_eq_iff.mpr ⟨h1, by linarith⟩
  unfold roundHalfEven
  rw [hfl, if_pos (by linarith)]

/-- Evaluation of roundHalfEven above the midpoint. -/
theorem roundHalfEven_eq_of_gt {x : Rat} {n : Int}
    (h1 : (n : Rat) + 1/2 < x) (h2 : x < (n : Rat) + 1) :
    roundHalfEven x = n + 1 := by
  have hfl : ⌊x⌋ = n := Int.floor_eq_iff.mpr ⟨by linarith, h2⟩
  unfold roundHalfEven
  rw [hfl, if_neg (by linarith), if_pos (by linarith)]

/-- Evaluation of roundHalfEven at a midpoint with odd floor. -/
theorem roundHalfEven_eq_of_half_odd {x : Rat} {n : Int}
    (h1 : x = (n : Rat) + 1/2) (hodd : n % 2 = 1) :
    roundHalfEven x = n + 1 := by
  have hfl : ⌊x⌋ = n := Int.floor_eq_iff.mpr
    ⟨by rw [h1]; linarith, by rw [h1]; linarith⟩
  have hfrac : x - (n : Rat) = 1/2 := by
    rw [h1]
    ring
  unfold roundHalfEven
  rw [hfl, hfrac, if_neg (by norm_num), if_neg (by norm_num), if_neg (by omega)]

/-- Evaluation of the positive rounding through an explicit binade and
mantissa. -/
theorem roundDoublePos_eval {a : Rat} {e : Int} {m : Int}
    (hlo : ratExp2 e ≤ a) (hhi : a < ratExp2 (e + 1))
    (hm : roundHalfEven (a * ratExp2 (52 - e)) = m) :
    roundDoublePos a = (m : Rat) * ratExp2 (e - 52) := by
  unfold roundDoublePos
  rw [binExp_correct hlo hhi, hm]

/-- roundDouble on a positive rational. -/
theorem roundDouble_of_pos {q : Rat} (h : 0 < q) : roundDouble q = roundDoublePos q := by
  unfold roundDouble
  rw [if_neg (ne_of_gt h), if_neg (not_lt.mpr (le_of_lt h))]

/-- roundDouble on a negative rational. -/
theorem roundDouble_of_neg {q : Rat} (h : q < 0) :
    roundDouble q = -roundDoublePos (-q) := by
  unfold roundDouble
  rw [if_neg (ne_of_lt h), if_pos h]

/-- Double value of Decimal 0.1: float(Decimal("0.1")). -/
theorem rdTenth : roundDouble (1/10 : Rat) = 3602879701896397 / 2 ^ 55 := by
  have hm : roundHalfEven ((1/10 : Rat) * ratExp2 (52 - (-4))) = 7205759403792794 := by
    rw [@roundHalfEven_eq_of_gt ((1/10 : Rat) * ratExp2 (52 - (-4))) 7205759403792793
      (by norm_num [ratExp2_eq_zpow]) (by norm_num [ratExp2_eq_zpow])]
    norm_num
  rw [roundDouble_of_pos (by norm_num),
    @roundDoublePos_eval (1/10 : Rat) (-4) 7205759403792794
      (by norm_num [ratExp2_eq_zpow]) (by norm_num [ratExp2_eq_zpow]) hm]
  norm_num [ratExp2_eq_zpow]

/-- Double value of Decimal 0.3. -/
theorem rdThreeTenths : roundDouble (3/10 : Rat) = 5404319552844595 / 2 ^ 54 := by
  have hm : roundHalfEven ((3/10 : Rat) * ratExp2 (52 - (-2))) = 5404319552844595 :=
    @roundHalfEven_eq_of_lt ((3/10 : Rat) * ratExp2 (52 - (-2))) 5404319552844595
      (by norm_num [ratExp2_eq_zpow]) (by norm_num [ratExp2_eq_zpow])
  rw [roundDouble_of_pos (by norm_num),
    @roundDoublePos_eval (3/10 : Rat) (-2) 5404319552844595
      (by norm_num [ratExp2_eq_zpow]) (by norm_num [ratExp2_eq_zpow]) hm]
  norm_num [ratExp2_eq_zpow]

/-- One half is exactly representable. -/
theorem rdHalf : roundDouble (1/2 : Rat) = 1/2 := by
  have hm : roundHalfEven ((1/2 : Rat) * ratExp2 (52 - (-1))) = 4503599627370496 :=
    @roundHalfEven_eq_of_lt ((1/2 : Rat) * ratExp2 (52 - (-1))) 4503599627370496
      (by norm_num [ratExp2_eq_zpow]) (by norm_num [ratExp2_eq_zpow])
  rw [roundDouble_of_pos (by norm_num),
    @roundDoublePos_eval (1/2 : Rat) (-1) 4503599627370496
      (by norm_num [ratExp2_eq_zpow]) (by norm_num [ratExp2_eq_zpow]) hm]
  norm_num [ratExp2_eq_zpow]

/-- The double subtraction 0.3d - 0.1d is exactly representable. -/
theorem rdDiff : roundDouble ((7205759403792793 : Rat) / 2 ^ 55) =
    (7205759403792793 : Rat) / 2 ^ 55 := by
  have hm : roundHalfEven (((7205759403792793 : Rat) / 2 ^ 55) * ratExp2 (52 - (-3))) =
      7205759403792793 :=
    @roundHalfEven_eq_of_lt (((7205759403792793 : Rat) / 2 ^ 55) * ratExp2 (52 - (-3)))
      7205759403792793
      (by norm_num [ratExp2_eq_zpow]) (by norm_num [ratExp2_eq_zpow])
  rw [roundDouble_of_pos (by norm_num),
    @roundDoublePos_eval ((7205759403792793 : Rat) / 2 ^ 55) (-3) 7205759403792793
      (by norm_num [ratExp2_eq_zpow]) (by norm_num [ratExp2_eq_zpow]) hm]
  norm_num [ratExp2_eq_zpow]

/-- The double quotient (0.3d - 0.1d) / 0.5 is exactly representable. -/
theorem rdQuot : roundDouble ((7205759403792793 : Rat) / 2 ^ 54) =
    (7205759403792793 : Rat) / 2 ^ 54 := by
  have hm : roundHalfEven (((7205759403792793 : Rat) / 2 ^ 54) * ratExp2 (52 - (-2))) =
      7205759403792793 :=
    @roundHalfEven_eq_of_lt (((7205759403792793 : Rat) / 2 ^ 54) * ratExp2 (52 - (-2)))
      7205759403792793
      (by norm_num [ratExp2_eq_zpow]) (by norm_num [ratExp2_eq_zpow])
  rw [roundDouble_of_pos (by norm_num),
    @roundDoublePos_eval ((7205759403792793 : Rat) / 2 ^ 54) (-2) 7205759403792793
      (by norm_num [ratExp2_eq_zpow]) (by norm_num [ratExp2_eq_zpow]) hm]
  norm_num [ratExp2_eq_zpow]

/-- The double product ((0.3d - 0.1d) / 0.5) * 100 rounds to exactly 40. -/
theorem rdVar40 : roundDouble ((180143985094819825 : Rat) / 2 ^ 52) = 40 := by
  have hm : roundHalfEven (((180143985094819825 : Rat) / 2 ^ 52) * ratExp2 (52 - 5)) =
      5629499534213120 := by
    rw [@roundHalfEven_eq_of_gt (((180143985094819825 : Rat) / 2 ^ 52) * ratExp2 (52 - 5))
      5629499534213119
      (by norm_num [ratExp2_eq_zpow]) (by norm_num [ratExp2_eq_zpow])]
    norm_num
  rw [roundDouble_of_pos (by norm_num),
    @roundDoublePos_eval ((180143985094819825 : Rat) / 2 ^ 52) 5 5629499534213120
      (by norm_num [ratExp2_eq_zpow]) (by norm_num [ratExp2_eq_zpow]) hm]
  norm_num [ratExp2_eq_zpow]

/-- The double sum 0.1d + 0.3d rounds up at an odd midpoint. -/
theorem rdSum : roundDouble ((14411518807585587 : Rat) / 2 ^ 55) =
    (7205759403792794 : Rat) / 2 ^ 54 := by
  have hm : roundHalfEven (((14411518807585587 : Rat) / 2 ^ 55) * ratExp2 (52 - (-2))) =
      7205759403792794 := by
    rw [@roundHalfEven_eq_of_half_odd
      (((14411518807585587 : Rat) / 2 ^ 55) * ratExp2 (52 - (-2))) 7205759403792793
      (by norm_num [ratExp2_eq_zpow]) (by norm_num)]
    norm_num
  rw [roundDouble_of_pos (by norm_num),
    @roundDoublePos_eval ((14411518807585587 : Rat) / 2 ^ 55) (-2) 7205759403792794
      (by norm_num [ratExp2_eq_zpow]) (by norm_num [ratExp2_eq_zpow]) hm]
  norm_num [ratExp2_eq_zpow]

/-- The distance 0.1d to the double median is exactly representable. -/
theorem rdpKeyA : roundDoublePos ((3602879701896397 : Rat) / 2 ^ 55) =
    (3602879701896397 : Rat) / 2 ^ 55 := by
  have hm : roundHalfEven (((3602879701896397 : Rat) / 2 ^ 55) * ratExp2 (52 - (-4))) =
      7205759403792794 :=
    @roundHalfEven_eq_of_lt (((3602879701896397 : Rat) / 2 ^ 55) * ratExp2 (52 - (-4)))
      7205759403792794
      (by norm_num [ratExp2_eq_zpow]) (by norm_num [ratExp2_eq_zpow])
  rw [@roundDoublePos_eval ((3602879701896397 : Rat) / 2 ^ 55) (-4) 7205759403792794
      (by norm_num [ratExp2_eq_zpow]) (by norm_num [ratExp2_eq_zpow]) hm]
  norm_num [ratExp2_eq_zpow]

/-- The distance 0.3d to the double median is exactly representable. -/
theorem rdKeyB : roundDouble ((3602879701896396 : Rat) / 2 ^ 55) =
    (3602879701896396 : Rat) / 2 ^ 55 := by
  have hm : roundHalfEven (((3602879701896396 : Rat) / 2 ^ 55) * ratExp2 (52 - (-4))) =
      7205759403792792 :=
    @roundHalfEven_eq_of_lt (((3602879701896396 : Rat) / 2 ^ 55) * ratExp2 (52 - (-4)))
      7205759403792792
      (by norm_num [ratExp2_eq_zpow]) (by norm_num [ratExp2_eq_zpow])
  rw [roundDouble_of_pos (by norm_num),
    @roundDoublePos_eval ((3602879701896396 : Rat) / 2 ^ 55) (-4) 7205759403792792
      (by norm_num [ratExp2_eq_zpow]) (by norm_num [ratExp2_eq_zpow]) hm]
  norm_num [ratExp2_eq_zpow]

/-- Small integers are exactly representable as doubles. -/
theorem rd80 : roundDouble (80 : Rat) = 80 := by
  have hm : roundHalfEven ((80 : Rat) * ratExp2 (52 - 6)) = 5629499534213120 :=
    @roundHalfEven_eq_of_lt ((80 : Rat) * ratExp2 (52 - 6)) 5629499534213120
      (by norm_num [ratExp2_eq_zpow]) (by norm_num [ratExp2_eq_zpow])
  rw [roundDouble_of_pos (by norm_num),
    @roundDoublePos_eval (80 : Rat) 6 5629499534213120
      (by norm_num [ratExp2_eq_zpow]) (by norm_num [ratExp2_eq_zpow]) hm]
  norm_num [ratExp2_eq_zpow]

/-- Small integers are exactly representable as doubles. -/
theorem rd85 : roundDouble (85 : Rat) = 85 := by
  have hm : roundHalfEven ((85 : Rat) * ratExp2 (52 - 6)) = 5981343255101440 :=
    @roundHalfEven_eq_of_lt ((85 : Rat) * ratExp2 (52 - 6)) 5981343255101440
      (by norm_num [ratExp2_eq_zpow]) (by norm_num [ratExp2_eq_zpow])
  rw [roundDouble_of_pos (by norm_num),
    @roundDoublePos_eval (85 : Rat) 6 5981343255101440
      (by norm_num [ratExp2_eq_zpow]) (by norm_num [ratExp2_eq_zpow]) hm]
  norm_num [ratExp2_eq_zpow]

/-- Small integers are exactly representable as doubles. -/
theorem rd95 : roundDouble (95 : Rat) = 95 := by
  have hm : roundHalfEven ((95 : Rat) * ratExp2 (52 - 6)) = 6685030696878080 :=
    @roundHalfEven_eq_of_lt ((95 : Rat) * ratExp2 (52 - 6)) 6685030696878080
      (by norm_num [ratExp2_eq_zpow]) (by norm_num [ratExp2_eq_zpow])
  rw [roundDouble_of_pos (by norm_num),
    @roundDoublePos_eval (95 : Rat) 6 6685030696878080
      (by norm_num [ratExp2_eq_zpow]) (by norm_num [ratExp2_eq_zpow]) hm]
  norm_num [ratExp2_eq_zpow]

/-- Small integers are exactly representable as doubles. -/
theorem rd100 : roundDouble (100 : Rat) = 100 := by
  have hm : roundHalfEven ((100 : Rat) * ratExp2 (52 - 6)) = 7036874417766400 :=
    @roundHalfEven_eq_of_lt ((100 : Rat) * ratExp2 (52 - 6)) 7036874417766400
      (by norm_num [ratExp2_eq_zpow]) (by norm_num [ratExp2_eq_zpow])
  rw [roundDouble_of_pos (by norm_num),
    @roundDoublePos_eval (100 : Rat) 6 7036874417766400
      (by norm_num [ratExp2_eq_zpow]) (by norm_num [ratExp2_eq_zpow]) hm]
  norm_num [ratExp2_eq_zpow]

/-- Small integers are exactly representable as doubles. -/
theorem rd15 : roundDouble (15 : Rat) = 15 := by
  have hm : roundHalfEven ((15 : Rat) * ratExp2 (52 - 3)) = 8444249301319680 :=
    @roundHalfEven_eq_of_lt ((15 : Rat) * ratExp2 (52 - 3)) 8444249301319680
      (by norm_num [ratExp2_eq_zpow]) (by norm_num [ratExp2_eq_zpow])
  rw [roundDouble_of_pos (by norm_num),
    @roundDoublePos_eval (15 : Rat) 3 8444249301319680
      (by norm_num [ratExp2_eq_zpow]) (by norm_num [ratExp2_eq_zpow]) hm]
  norm_num [ratExp2_eq_zpow]

/-- Small integers are exactly representable as doubles. -/
theorem rd10 : roundDouble (10 : Rat) = 10 := by
  have hm : roundHalfEven ((10 : Rat) * ratExp2 (52 - 3)) = 5629499534213120 :=
    @roundHalfEven_eq_of_lt ((10 : Rat) * ratExp2 (52 - 3)) 5629499534213120
      (by norm_num [ratExp2_eq_zpow]) (by norm_num [ratExp2_eq_zpow])
  rw [roundDouble_of_pos (by norm_num),
    @roundDoublePos_eval (10 : Rat) 3 5629499534213120
      (by norm_num [ratExp2_eq_zpow]) (by norm_num [ratExp2_eq_zpow]) hm]
  norm_num [ratExp2_eq_zpow]

/-- Small integers are exactly representable as doubles. -/
theorem rdp5 : roundDoublePos (5 : Rat) = 5 := by
  have hm : roundHalfEven ((5 : Rat) * ratExp2 (52 - 2)) = 5629499534213120 :=
    @roundHalfEven_eq_of_lt ((5 : Rat) * ratExp2 (52 - 2)) 5629499534213120
      (by norm_num [ratExp2_eq_zpow]) (by norm_num [ratExp2_eq_zpow])
  rw [@roundDoublePos_eval (5 : Rat) 2 5629499534213120
      (by norm_num [ratExp2_eq_zpow]) (by norm_num [ratExp2_eq_zpow]) hm]
  norm_num [ratExp2_eq_zpow]

/-- Double value of the quotient 15 / 100. -/
theorem rdThreeTwentieths : roundDouble (3/20 : Rat) = 5404319552844595 / 2 ^ 55 := by
  have hm : roundHalfEven ((3/20 : Rat) * ratExp2 (52 - (-3))) = 5404319552844595 :=
    @roundHalfEven_eq_of_lt ((3/20 : Rat) * ratExp2 (52 - (-3))) 5404319552844595
      (by norm_num [ratExp2_eq_zpow]) (by norm_num [ratExp2_eq_zpow])
  rw [roundDouble_of_pos (by norm_num),
    @roundDoublePos_eval (3/20 : Rat) (-3) 5404319552844595
      (by norm_num [ratExp2_eq_zpow]) (by norm_num [ratExp2_eq_zpow]) hm]
  norm_num [ratExp2_eq_zpow]

/-- The double product 0.15d * 100 rounds to exactly 15. -/
theorem rdVar15 : roundDouble ((135107988821114875 : Rat) / 2 ^ 53) = 15 := by
  have hm : roundHalfEven (((135107988821114875 : Rat) / 2 ^ 53) * ratExp2 (52 - 3)) =
      8444249301319680 := by
    rw [@roundHalfEven_eq_of_gt (((135107988821114875 : Rat) / 2 ^ 53) * ratExp2 (52 - 3))
      8444249301319679
      (by norm_num [ratExp2_eq_zpow]) (by norm_num [ratExp2_eq_zpow])]
    norm_num
  rw [roundDouble_of_pos (by norm_num),
    @roundDoublePos_eval ((135107988821114875 : Rat) / 2 ^ 53) 3 8444249301319680
      (by norm_num [ratExp2_eq_zpow]) (by norm_num [ratExp2_eq_zpow]) hm]
  norm_num [ratExp2_eq_zpow]

/-- Zero is the double zero. -/
theorem rdZero : roundDouble (0 : Rat) = 0 := by
  simp [roundDouble]

/-- Double-precision variance of the passes scoring 0.1 and 0.3 of 0.5: exactly 40 percent. -/
theorem calcVarianceFloat_tie_example :
    calcVarianceFloat [passTenth, passThreeTenths] = 40 := by
  have h0 : calcVarianceFloat [passTenth, passThreeTenths] =
      if roundDouble passTenth.result.total_max = 0 then 0
      else roundDouble (roundDouble (roundDouble
        (listMax [roundDouble passTenth.total_score, roundDouble passThreeTenths.total_score]
          - listMin [roundDouble passTenth.total_score, roundDouble passThreeTenths.total_score])
        / roundDouble passTenth.result.total_max) * 100) := rfl
  rw [h0, show passTenth.total_score = (1/10 : Rat) from rfl,
    show passThreeTenths.total_score = (3/10 : Rat) from rfl,
    show passTenth.result.total_max = (1/2 : Rat) from by
      norm_num [passTenth, resultTenth, GradingResult.total_max],
    rdTenth, rdThreeTenths, rdHalf]
  rw [if_neg (by norm_num)]
  rw [show listMax [(3602879701896397 : Rat) / 2 ^ 55, (5404319552844595 : Rat) / 2 ^ 54] =
      (5404319552844595 : Rat) / 2 ^ 54 from by
    norm_num [listMax, List.foldl_cons, List.foldl_nil, max_def]]
  rw [show listMin [(3602879701896397 : Rat) / 2 ^ 55, (5404319552844595 : Rat) / 2 ^ 54] =
      (3602879701896397 : Rat) / 2 ^ 55 from by
    norm_num [listMin, List.foldl_cons, List.foldl_nil, min_def]]
  rw [show (5404319552844595 : Rat) / 2 ^ 54 - (3602879701896397 : Rat) / 2 ^ 55 =
      (7205759403792793 : Rat) / 2 ^ 55 from by norm_num, rdDiff]
  rw [show (7205759403792793 : Rat) / 2 ^ 55 / (1/2 : Rat) =
      (7205759403792793 : Rat) / 2 ^ 54 from by norm_num, rdQuot]
  rw [show (7205759403792793 : Rat) / 2 ^ 54 * 100 =
      (180143985094819825 : Rat) / 2 ^ 52 from by norm_num, rdVar40]

/-- Double-precision median of the doubles 0.1d and 0.3d. -/
theorem medianFloat_tie_example :
    medianFloat [(3602879701896397 : Rat) / 2 ^ 55, (5404319552844595 : Rat) / 2 ^ 54] =
      (3602879701896397 : Rat) / 2 ^ 54 := by
  have hsort : sortRat [(3602879701896397 : Rat) / 2 ^ 55, (5404319552844595 : Rat) / 2 ^ 54] =
      [(3602879701896397 : Rat) / 2 ^ 55, (5404319552844595 : Rat) / 2 ^ 54] := by
    simp only [sortRat, List.foldr_cons, List.foldr_nil]
    rw [show insertSorted ((5404319552844595 : Rat) / 2 ^ 54) [] =
        [(5404319552844595 : Rat) / 2 ^ 54] from rfl]
    simp only [insertSorted]
    rw [if_pos (by norm_num :
      (3602879701896397 : Rat) / 2 ^ 55 ≤ (5404319552844595 : Rat) / 2 ^ 54)]
  simp only [medianFloat]
  rw [hsort]
  rw [show ([(3602879701896397 : Rat) / 2 ^ 55,
      (5404319552844595 : Rat) / 2 ^ 54] : List Rat).length = 2 from rfl]
  rw [if_neg (by norm_num), if_neg (by norm_num)]
  rw [show ([(3602879701896397 : Rat) / 2 ^ 55,
      (5404319552844595 : Rat) / 2 ^ 54] : List Rat).getD (2 / 2 - 1) 0 =
      (3602879701896397 : Rat) / 2 ^ 55 from rfl]
  rw [show ([(3602879701896397 : Rat) / 2 ^ 55,
      (5404319552844595 : Rat) / 2 ^ 54] : List Rat).getD (2 / 2) 0 =
      (5404319552844595 : Rat) / 2 ^ 54 from rfl]
  rw [show (3602879701896397 : Rat) / 2 ^ 55 + (5404319552844595 : Rat) / 2 ^ 54 =
      (14411518807585587 : Rat) / 2 ^ 55 from by norm_num, rdSum]
  norm_num

/-- Helper evaluation: at the scores 0.1 and 0.3 the double selection keys are |0.1d - medd| and |0.3d - medd|, and the second is strictly smaller, so the second pass is selected. -/
theorem selectResultFloat_tie_example :
    selectResultFloat 5 [passTenth, passThreeTenths] = some (resultThreeTenths, true) := by
  have hsel : selectResultFloat 5 [passTenth, passThreeTenths] =
      some ((argminFirst (floatKey (medianFloat ([passTenth, passThreeTenths].map
          fun q => roundDouble q.total_score))) passTenth [passThreeTenths]).result,
        decide (calcVarianceFloat [passTenth, passThreeTenths] > 5)) := rfl
  have hmap : ([passTenth, passThreeTenths].map fun q => roundDouble q.total_score) =
      [(3602879701896397 : Rat) / 2 ^ 55, (5404319552844595 : Rat) / 2 ^ 54] := by
    simp only [List.map_cons, List.map_nil]
    rw [show passTenth.total_score = (1/10 : Rat) from rfl,
      show passThreeTenths.total_score = (3/10 : Rat) from rfl, rdTenth, rdThreeTenths]
  rw [hsel, hmap, medianFloat_tie_example, calcVarianceFloat_tie_example]
  have hk1 : floatKey ((3602879701896397 : Rat) / 2 ^ 54) passTenth =
      (3602879701896397 : Rat) / 2 ^ 55 := by
    simp only [floatKey]
    rw [show passTenth.total_score = (1/10 : Rat) from rfl, rdTenth,
      show (3602879701896397 : Rat) / 2 ^ 55 - (3602879701896397 : Rat) / 2 ^ 54 =
        -((3602879701896397 : Rat) / 2 ^ 55) from by norm_num,
      roundDouble_of_neg (by norm_num), neg_neg, rdpKeyA, abs_neg,
      abs_of_pos (by norm_num)]
  have hk2 : floatKey ((3602879701896397 : Rat) / 2 ^ 54) passThreeTenths =
      (3602879701896396 : Rat) / 2 ^ 55 := by
    simp only [floatKey]
    rw [show passThreeTenths.total_score = (3/10 : Rat) from rfl, rdThreeTenths,
      show (5404319552844595 : Rat) / 2 ^ 54 - (3602879701896397 : Rat) / 2 ^ 54 =
        (3602879701896396 : Rat) / 2 ^ 55 from by norm_num,
      rdKeyB, abs_of_pos (by norm_num)]
  have ha : argminFirst (floatKey ((3602879701896397 : Rat) / 2 ^ 54)) passTenth
      [passThreeTenths] = passThreeTenths := by
    unfold argminFirst
    simp only [List.foldl_cons, List.foldl_nil]
    rw [if_pos (show floatKey ((3602879701896397 : Rat) / 2 ^ 54) passThreeTenths <
        floatKey ((3602879701896397 : Rat) / 2 ^ 54) passTenth from by
      rw [hk1, hk2]; norm_num)]
  rw [ha, show decide ((40 : Rat) > 5) = true from by rw [decide_eq_true_eq]; norm_num]
  rfl

/-- Double-precision variance of the 80/85/95 consensus example: exactly 15 percent. -/
theorem calcVarianceFloat_consensus_example :
    calcVarianceFloat [pass80, pass85, pass95] = 15 := by
  have h0 : calcVarianceFloat [pass80, pass85, pass95] =
      if roundDouble pass80.result.total_max = 0 then 0
      else roundDouble (roundDouble (roundDouble
        (listMax [roundDouble pass80.total_score, roundDouble pass85.total_score,
            roundDouble pass95.total_score]
          - listMin [roundDouble pass80.total_score, roundDouble pass85.total_score,
            roundDouble pass95.total_score])
        / roundDouble pass80.result.total_max) * 100) := rfl
  rw [h0, show pass80.total_score = (80 : Rat) from rfl,
    show pass85.total_score = (85 : Rat) from rfl,
    show pass95.total_score = (95 : Rat) from rfl,
    show pass80.result.total_max = (100 : Rat) from by
      norm_num [pass80, result80, GradingResult.total_max],
    rd80, rd85, rd95, rd100]
  rw [if_neg (by norm_num)]
  rw [show listMax [(80 : Rat), 85, 95] = 95 from by
    norm_num [listMax, List.foldl_cons, List.foldl_nil, max_def]]
  rw [show listMin [(80 : Rat), 85, 95] = 80 from by
    norm_num [listMin, List.foldl_cons, List.foldl_nil, min_def]]
  rw [show (95 : Rat) - 80 = 15 from by norm_num, rd15]
  rw [show (15 : Rat) / 100 = 3/20 from by norm_num, rdThreeTwentieths]
  rw [show (5404319552844595 : Rat) / 2 ^ 55 * 100 =
      (135107988821114875 : Rat) / 2 ^ 53 from by norm_num, rdVar15]

/-- Double-precision median of 80, 85 and 95. -/
theorem medianFloat_consensus_example :
    medianFloat [(80 : Rat), 85, 95] = 85 := by
  have hsort : sortRat [(80 : Rat), 85, 95] = [80, 85, 95] := by
    simp only [sortRat, List.foldr_cons, List.foldr_nil]
    rw [show insertSorted (95 : Rat) [] = [95] from rfl]
    rw [show insertSorted (85 : Rat) [95] = [85, 95] from by
      simp only [insertSorted]
      rw [if_pos (by norm_num : (85 : Rat) ≤ 95)]]
    simp only [insertSorted]
    rw [if_pos (by norm_num : (80 : Rat) ≤ 85)]
  simp only [medianFloat]
  rw [hsort]
  rw [show ([(80 : Rat), 85, 95] : List Rat).length = 3 from rfl]
  rw [if_neg (by norm_num), if_pos (by norm_num)]
  rw [show ([(80 : Rat), 85, 95] : List Rat).getD (3 / 2) 0 = (85 : Rat) from rfl]

/-- Helper evaluation: the double-precision consensus over the passes scoring 80, 85 and 95 out of 100 with a 5 percent threshold selects the pass scoring 85 and detects variance. -/
theorem selectResultFloat_consensus_example :
    selectResultFloat 5 [pass80, pass85, pass95] = some (result85, true) := by
  have hsel : selectResultFloat 5 [pass80, pass85, pass95] =
      some ((argminFirst (floatKey (medianFloat ([pass80, pass85, pass95].map
          fun q => roundDouble q.total_score))) pass80 [pass85, pass95]).result,
        decide (calcVarianceFloat [pass80, pass85, pass95] > 5)) := rfl
  have hmap : ([pass80, pass85, pass95].map fun q => roundDouble q.total_score) =
      [(80 : Rat), 85, 95] := by
    simp only [List.map_cons, List.map_nil]
    rw [show pass80.total_score = (80 : Rat) from rfl,
      show pass85.total_score = (85 : Rat) from rfl,
      show pass95.total_score = (95 : Rat) from rfl, rd80, rd85, rd95]
  rw [hsel, hmap, medianFloat_consensus_example, calcVarianceFloat_consensus_example]
  have hk80 : floatKey (85 : Rat) pass80 = 5 := by
    simp only [floatKey]
    rw [show pass80.total_score = (80 : Rat) from rfl, rd80,
      show (80 : Rat) - 85 = -5 from by norm_num,
      roundDouble_of_neg (by norm_num), neg_neg, rdp5, abs_neg,
      abs_of_pos (by norm_num)]
  have hk85 : floatKey (85 : Rat) pass85 = 0 := by
    simp only [floatKey]
    rw [show pass85.total_score = (85 : Rat) from rfl, rd85,
      show (85 : Rat) - 85 = 0 from by norm_num, rdZero, abs_zero]
  have hk95 : floatKey (85 : Rat) pass95 = 10 := by
    simp only [floatKey]
    rw [show pass95.total_score = (95 : Rat) from rfl, rd95,
      show (95 : Rat) - 85 = 10 from by norm_num, rd10,
      abs_of_pos (by norm_num)]
  have ha : argminFirst (floatKey (85 : Rat)) pass80 [pass85, pass95] = pass85 := by
    unfold argminFirst
    simp only [List.foldl_cons, List.foldl_nil]
    rw [if_pos (show floatKey (85 : Rat) pass85 < floatKey (85 : Rat) pass80 from by
        rw [hk85, hk80]; norm_num),
      if_neg (show ¬ (floatKey (85 : Rat) pass95 < floatKey (85 : Rat) pass85) from by
        rw [hk95, hk85]; norm_num)]
  rw [ha, show decide ((15 : Rat) > 5) = true from by rw [decide_eq_true_eq]; norm_num]
  rfl

/-- Helper evaluation: consensus over the passes scoring 80, 85 and 95
out of 100 with a 5 percent threshold selects the pass scoring 85 and
detects variance. -/
theorem selectResult_consensus_example :
    selectResult 5 [pass80, pass85, pass95] = some (result85, true) := by
  have hm : median ([pass80, pass85, pass95].map fun q => q.total_score) = 85 := by
    norm_num [median, sortRat, insertSorted, pass80, pass85, pass95]
  have hv : calcVariance [pass80, pass85, pass95] = 15 := by
    norm_num [calcVariance, listMax, listMin, pass80, pass85, pass95, result80,
      GradingResult.total_max, max_def, min_def]
  have hsel : selectResult 5 [pass80, pass85, pass95] =
      some ((argminFirst
          (fun q => |q.total_score - median ([pass80, pass85, pass95].map
            fun q => q.total_score)|) pass80 [pass85, pass95]).result,
        decide (calcVariance [pass80, pass85, pass95] > 5)) := rfl
  rw [hsel, hv, hm]
  have ha : argminFirst (fun q => |q.total_score - (85 : Rat)|) pass80
      [pass85, pass95] = pass85 := by
    unfold argminFirst
    simp only [List.foldl_cons, List.foldl_nil]
    rw [if_pos (show |pass85.total_score - (85 : Rat)| < |pass80.total_score - (85 : Rat)|
      from by norm_num [pass80, pass85])]
    rw [if_neg (show ¬ (|pass95.total_score - (85 : Rat)| < |pass85.total_score - (85 : Rat)|)
      from by norm_num [pass85, pass95])]
  rw [ha, show decide ((15 : Rat) > 5) = true from by rw [decide_eq_true_eq]; norm_num]
  rfl

/-- Helper evaluation: the full grade flow re-stamps the selected median
result with three passes and both flags set. -/
theorem gradeFinal_consensus_example :
    gradeFinal 5 3 [pass80, pass85, pass95] = some consensusResult85 := by
  unfold gradeFinal
  rw [selectResult_consensus_example]
  simp only []
  have hv : calcVariance [pass80, pass85, pass95] = 15 := by
    norm_num [calcVariance, listMax, listMin, pass80, pass85, pass95, result80,
      GradingResult.total_max, max_def, min_def]
  rw [hv, show decide ((15 : Rat) > 5) = true from by rw [decide_eq_true_eq]; norm_num]
  rfl

/-- C3: with two or more successful passes, _select_result computes in
IEEE-754 double precision: it returns the result of the pass whose double
score has the smallest double-precision distance to the double-precision
median of the scores, the earliest pass winning ties of the double keys,
paired with the variance flag; in particular the 80/85/95 example, whose
quantities are all exact in doubles, selects the 85 pass with variance
detected. -/
theorem c3 :
    (∀ (threshold : Rat) (passes : List GradingPass),
      2 ≤ passes.length →
      (∀ p ∈ passes, p.total_score = p.result.total_awarded) →
      ∃ (i : Nat) (hi : i < passes.length),
        selectResultFloat threshold passes =
          some ((passes.get ⟨i, hi⟩).result,
            decide (calcVarianceFloat passes > threshold)) ∧
        (∀ (j : Nat) (hj : j < passes.length),
          |roundDouble (roundDouble (passes.get ⟨i, hi⟩).result.total_awarded -
              medianFloat (passes.map fun q => roundDouble q.result.total_awarded))| ≤
            |roundDouble (roundDouble (passes.get ⟨j, hj⟩).result.total_awarded -
              medianFloat (passes.map fun q => roundDouble q.result.total_awarded))|) ∧
        (∀ (j : Nat) (hj : j < passes.length), j < i →
          |roundDouble (roundDouble (passes.get ⟨i, hi⟩).result.total_awarded -
              medianFloat (passes.map fun q => roundDouble q.result.total_awarded))| <
            |roundDouble (roundDouble (passes.get ⟨j, hj⟩).result.total_awarded -
              medianFloat (passes.map fun q => roundDouble q.result.total_awarded))|)) ∧
    selectResultFloat 5 [pass80, pass85, pass95] = some (result85, true) := by
  constructor
  · intro threshold passes h2 hcoh
    cases passes with
    | nil => exact absurd h2 (by simp)
    | cons p rest0 =>
        cases rest0 with
        | nil => exact absurd h2 (by simp)
        | cons q rest =>
            have hmed : medianFloat ((p :: q :: rest).map fun r => roundDouble r.total_score) =
                medianFloat ((p :: q :: rest).map fun r => roundDouble r.result.total_awarded) :=
              congrArg medianFloat (List.map_congr_left fun r hr =>
                congrArg roundDouble (hcoh r hr))
            have hsel : selectResultFloat threshold (p :: q :: rest) =
                some ((argminFirst
                    (floatKey (medianFloat ((p :: q :: rest).map
                      fun r => roundDouble r.total_score))) p (q :: rest)).result,
                  decide (calcVarianceFloat (p :: q :: rest) > threshold)) := rfl
            obtain ⟨i, hi, heq, hle, hlt⟩ := argminFirst_spec
              (floatKey (medianFloat ((p :: q :: rest).map
                fun r => roundDouble r.total_score))) (q :: rest) p
            refine ⟨i, hi, ?_, ?_, ?_⟩
            · rw [hsel, heq]
            · intro j hj
              have h1 := hle j hj
              simp only [floatKey, hcoh _ (List.get_mem _ _ _), hmed] at h1
              exact h1
            · intro j hj hji
              have h1 := hlt j hj hji
              simp only [floatKey, hcoh _ (List.get_mem _ _ _), hmed] at h1
              exact h1
  · exact selectResultFloat_consensus_example

/-- C3 witness: the selection hypotheses hold at the concrete three-pass
example and the selection picks the pass scoring 85 with the variance
flag set. -/
theorem c3_witness :
    2 ≤ ([pass80, pass85, pass95] : List GradingPass).length ∧
    selectResultFloat 5 [pass80, pass85, pass95] = some (result85, true) := by
  constructor
  · decide
  · obtain ⟨i, hi, heq, hle, hlt⟩ := c3.1 5 [pass80, pass85, pass95]
      (by decide)
      (by simp [pass80, pass85, pass95, result80, result85, result95,
        GradingResult.total_awarded])
    exact c3.2

/-- C3 counterexample to the exact closest-to-median reading: at the
reachable Decimal scores 0.1 and 0.3 the exact distances to the median 0.2
tie, so the claimed earliest-pass tie break would select the first pass,
but the program compares |0.1d - medd| and |0.3d - medd| in doubles, where
the second is strictly smaller, and returns the second pass with a
different result. -/
theorem c3_counterexample :
    selectResultFloat 5 [passTenth, passThreeTenths] = some (resultThreeTenths, true) ∧
    |passTenth.total_score -
        median ([passTenth, passThreeTenths].map fun q => q.total_score)| =
      |passThreeTenths.total_score -
        median ([passTenth, passThreeTenths].map fun q => q.total_score)| ∧
    passTenth.total_score = passTenth.result.total_awarded ∧
    passThreeTenths.total_score = passThreeTenths.result.total_awarded ∧
    resultThreeTenths ≠ resultTenth := by
  refine ⟨selectResultFloat_tie_example, ?_, ?_, ?_, ?_⟩
  · norm_num [median, sortRat, insertSorted, passTenth, passThreeTenths]
  · norm_num [passTenth, resultTenth, GradingResult.total_awarded]
  · norm_num [passThreeTenths, resultThreeTenths, GradingResult.total_awarded]
  · intro h
    have h2 := congrArg (fun r => r.criteria_results) h
    norm_num [resultTenth, resultThreeTenths] at h2

/-- C4: whenever the grade flow produces a final result, its
flagged_for_review equals its variance_detected; variance_detected holds
exactly when at least two passes succeeded and the variance percentage
exceeds the threshold; with a single successful pass both flags are
false. -/
theorem c4 :
    ∀ (threshold : Rat) (numPasses : Nat) (passes : List GradingPass)
      (g : GradingResult),
      gradeFinal threshold numPasses passes = some g →
      g.flagged_for_review = g.variance_detected ∧
      (g.variance_detected = true ↔
        2 ≤ passes.length ∧ calcVariance passes > threshold) ∧
      (passes.length = 1 →
        g.variance_detected = false ∧ g.flagged_for_review = false) := by
  intro threshold numPasses passes g h
  cases passes with
  | nil => exact absurd h (by simp [gradeFinal, selectResult])
  | cons p rest0 =>
      cases rest0 with
      | nil =>
          have hg : some (⟨p.result.rubric_title, p.result.criteria_results,
              p.result.overall_feedback, numPasses, false,
              false && decide (calcVariance [p] > threshold)⟩ : GradingResult) =
              some g := h
          have hg2 := Option.some.inj hg
          subst hg2
          refine ⟨by simp, ?_, ?_⟩
          · simp
          · intro _
            simp
      | cons q rest =>
          have hg : some (⟨(argminFirst (fun r => |r.total_score -
              median ((p :: q :: rest).map fun r => r.total_score)|)
                p (q :: rest)).result.rubric_title,
              (argminFirst (fun r => |r.total_score -
              median ((p :: q :: rest).map fun r => r.total_score)|)
                p (q :: rest)).result.criteria_results,
              (argminFirst (fun r => |r.total_score -
              median ((p :: q :: rest).map fun r => r.total_score)|)
                p (q :: rest)).result.overall_feedback, numPasses,
              decide (calcVariance (p :: q :: rest) > threshold),
              decide (calcVariance (p :: q :: rest) > threshold) &&
                decide (calcVariance (p :: q :: rest) > threshold)⟩ :
              GradingResult) = some g := h
          have hg2 := Option.some.inj hg
          subst hg2
          refine ⟨by simp [Bool.and_self], ?_, ?_⟩
          · simp only [decide_eq_true_eq]
            constructor
            · intro hvar
              exact ⟨by simp, hvar⟩
            · intro hvar
              exact hvar.2
          · intro hlen
            simp at hlen

/-- C4 witness: the flag relation evaluated on the three-pass consensus
example and on a single-pass run. -/
theorem c4_witness :
    (consensusResult85.flagged_for_review = consensusResult85.variance_detected ∧
      (consensusResult85.variance_detected = true ↔
        2 ≤ ([pass80, pass85, pass95] : List GradingPass).length ∧
          calcVariance [pass80, pass85, pass95] > 5)) ∧
    (result80.variance_detected = false ∧ result80.flagged_for_review = false) := by
  constructor
  · have h := c4 5 3 [pass80, pass85, pass95] consensusResult85
      gradeFinal_consensus_example
    exact ⟨h.1, h.2.1⟩
  · exact (c4 5 1 [pass80] result80 rfl).2.2 rfl

/-- The validator reports a vague issue exactly when vague_found is
nonempty. -/
theorem any_vague (c : RubricCriterion) (i : Nat) :
    (validateCriterion c i).any isVagueIssue = !(vagueFound c.description).isEmpty := by
  unfold validateCriterion
  split <;> split <;> split <;> split <;> simp_all [isVagueIssue]

/-- C9 counterexample: the description Counts the badges correctly has no
vague vocabulary word as a case-insensitive token, yet the validator
reports a vague-description issue (it matched bad inside badges),
refuting the exact-token reading of the claim. -/
theorem c9_counterexample :
    (validateCriterion badgeCriterion 1).any isVagueIssue = true ∧
    specVagueTokenMatch badgeCriterion.description = false := by
  decide

/-- C9 (amended): the validator reports a vague-description issue exactly
when some vocabulary word occurs as a substring of the case-folded
description, and every vocabulary word so occurring appears in the
reported word list of the issue. -/
theorem c9_theorem :
    ∀ (c : RubricCriterion) (i : Nat),
      ((validateCriterion c i).any isVagueIssue = true ↔
        ∃ w ∈ VAGUE_WORDS, isSubstring w.data (strToLower c.description).data = true) ∧
      (∀ w ∈ VAGUE_WORDS, isSubstring w.data (strToLower c.description).data = true →
        ValidationIssue.vagueWords i (vagueFound c.description) ∈ validateCriterion c i ∧
          w ∈ vagueFound c.description) := by
  intro c i
  constructor
  · rw [any_vague c i]
    constructor
    · intro h
      have hne : vagueFound c.description ≠ [] := by
        intro hnil
        rw [hnil] at h
        simp at h
      obtain ⟨w, hw⟩ := List.exists_mem_of_ne_nil _ hne
      have := List.mem_filter.mp hw
      exact ⟨w, this.1, this.2⟩
    · intro ⟨w, hwv, hws⟩
      have hmem : w ∈ vagueFound c.description :=
        List.mem_filter.mpr ⟨hwv, hws⟩
      have hne : (vagueFound c.description).isEmpty = false := by
        rw [List.isEmpty_eq_false]
        exact List.ne_nil_of_mem hmem
      rw [hne]
      rfl
  · intro w hwv hws
    have hmem : w ∈ vagueFound c.description :=
      List.mem_filter.mpr ⟨hwv, hws⟩
    refine ⟨?_, hmem⟩
    have hne : (vagueFound c.description).isEmpty = false := by
      rw [List.isEmpty_eq_false]
      exact List.ne_nil_of_mem hmem
    unfold validateCriterion
    rw [hne]
    simp

/-- C9 witness: the amended statement evaluated on a genuinely vague
description, with the word good reported. -/
theorem c9_witness :
    ((validateCriterion vagueCriterion 1).any isVagueIssue = true ↔
      ∃ w ∈ VAGUE_WORDS,
        isSubstring w.data (strToLower vagueCriterion.description).data = true) ∧
    (ValidationIssue.vagueWords 1 (vagueFound vagueCriterion.description) ∈
        validateCriterion vagueCriterion 1 ∧
      "good" ∈ vagueFound vagueCriterion.description) :=
  ⟨(c9_theorem vagueCriterion 1).1,
    (c9_theorem vagueCriterion 1).2 "good" (by decide) (by decide)⟩

/-- C10: parsing a rubric whose content is the line
1. Clarity (25 points): Ideas are expressed clearly yields exactly one
criterion named Clarity with max_points 25 and the quoted description
(the numbered strategy matches first, the title falls back to the
caller-supplied one). -/
theorem c10 :
    parseRubric "1. Clarity (25 points): Ideas are expressed clearly" "Grading Rubric" =
      .ok ⟨"Grading Rubric", "",
        [⟨"Clarity", "Ideas are expressed clearly", 25, true⟩]⟩ := by
  rfl

end StrictGrader
